import Mathlib

/-!
Verification of the analytics pipeline of azure-egress-management
(trend analysis, anomaly detection, cost analysis, recommendation engine).

The Python sources under src/src/egress/ are shallowly embedded here:
floating-point values are modelled by exact rationals; irrational scores of
the form a / sqrt(b) are modelled by the pair (a, b) with comparisons done
exactly on squares; pandas DataFrames are modelled by lists of rows;
wall-clock readings are passed explicitly; Python exceptions crossing a
function boundary are modelled by Except.
-/

namespace Egress

/-- Sum of a list of rationals. -/
def qsum (l : List ℚ) : ℚ := l.foldl (· + ·) 0

/-- Arithmetic mean of a list of rationals (0 for the empty list, which the
code never queries without first guarding emptiness). -/
def qmean (l : List ℚ) : ℚ := if l.length = 0 then 0 else qsum l / l.length

/-- Minimum of a list (0 for the empty list; callers guard emptiness). -/
def qmin : List ℚ → ℚ
  | [] => 0
  | h :: t => t.foldl min h

/-- Maximum of a list (0 for the empty list; callers guard emptiness). -/
def qmax : List ℚ → ℚ
  | [] => 0
  | h :: t => t.foldl max h

/-- Minimum of a list of integers (0 for the empty list; callers guard). -/
def qminZ : List ℤ → ℤ
  | [] => 0
  | h :: t => t.foldl min h

/-- Maximum of a list of integers (0 for the empty list; callers guard). -/
def qmaxZ : List ℤ → ℤ
  | [] => 0
  | h :: t => t.foldl max h

/-- ASCII lowercasing of one character. -/
def asciiLowerChar (c : Char) : Char :=
  if 'A' ≤ c ∧ c ≤ 'Z' then Char.ofNat (c.toNat + 32) else c

/-- Python `str.lower()` on the ASCII identifiers this code base handles
(metric names, region codes, resource types); written by explicit character
mapping so the kernel can evaluate it inside proofs. -/
def asciiLower (s : String) : String := String.mk (s.toList.map asciiLowerChar)

/-- Whether the character list `pat` occurs contiguously inside `l`
(Python `in` on strings / pandas `str.contains`). -/
def subListB : List Char → List Char → Bool
  | pat, [] => pat.isEmpty
  | pat, c :: rest => pat.isPrefixOf (c :: rest) || subListB pat rest

/-- Substring test, case-sensitive. -/
def containsStr (s pat : String) : Bool := subListB pat.toList s.toList

/-- The egress-metric filter of every analyzer: the metric name contains
"out", "sent" or "egress", case-insensitively. -/
def isEgressMetric (metricName : String) : Bool :=
  containsStr (asciiLower metricName) "out" || containsStr (asciiLower metricName) "sent" ||
    containsStr (asciiLower metricName) "egress"

/-- Stable insertion of `a` into `l`: `a` is placed before the first element
`b` such that `a` strictly precedes `b` under `le` (i.e. `le a b && !le b a`),
and after every earlier element it ties with.  Folding this over a list
reproduces exactly what a stable sort (Python `sorted` / `list.sort`)
produces for a total preorder `le`. -/
def insertStable (le : α → α → Bool) (a : α) : List α → List α
  | [] => [a]
  | b :: l => if le a b && !le b a then a :: b :: l else b :: insertStable le a l

/-- Stable sort by the total preorder `le` (Python stable `sorted`). -/
def stableSortBy (le : α → α → Bool) (l : List α) : List α :=
  l.foldr (insertStable le) []

/-- First occurrence of each element, in first-seen order (the key order of a
Python dict built by insertion). -/
def firstSeen [DecidableEq α] : List α → List α
  | [] => []
  | a :: l => a :: (firstSeen (l.filter (· ≠ a)))
  termination_by l => l.length
  decreasing_by
    exact Nat.lt_succ_of_le (List.length_filter_le _ _)

/-- Boolean less-or-equal on rationals, for use as a sort comparator. -/
def qle (a b : ℚ) : Bool := decide (a ≤ b)

/-- Boolean lexicographic less-or-equal on strings (Python string order;
coincides byte-wise for the ASCII data of this code base). -/
def strLe (a b : String) : Bool := decide (a < b) || decide (a = b)

/-- Sorted list of the distinct elements of `l` (the group keys produced by a
pandas `groupby` with its default `sort=True`). -/
def sortedKeys [DecidableEq α] (le : α → α → Bool) (l : List α) : List α :=
  stableSortBy le (firstSeen l)

end Egress

namespace Egress

/-! ### CostAnalyzer (src/src/egress/cost_analysis.py) -/

/-- One pricing tier: `limit_gb` is the cumulative volume cap of the tier
(`none` models Python `float('inf')`), `price` the per-GB price. -/
structure Tier where
  limit_gb : Option ℚ
  price : ℚ
deriving DecidableEq, Repr

/-- `DEFAULT_PRICING["zones"]["zone1"]["tiers"]` (North America & Europe). -/
def zone1Tiers : List Tier :=
  [⟨some 10240, 87/1000⟩, ⟨some 40960, 83/1000⟩,
   ⟨some 102400, 7/100⟩, ⟨none, 5/100⟩]

/-- `DEFAULT_PRICING["zones"]["zone2"]["tiers"]` (Asia Pacific). -/
def zone2Tiers : List Tier :=
  [⟨some 10240, 12/100⟩, ⟨some 40960, 11/100⟩,
   ⟨some 102400, 8/100⟩, ⟨none, 6/100⟩]

/-- `DEFAULT_PRICING["zones"]["zone3"]["tiers"]` (Brazil, South America). -/
def zone3Tiers : List Tier :=
  [⟨some 10240, 181/1000⟩, ⟨some 40960, 175/1000⟩,
   ⟨some 102400, 17/100⟩, ⟨none, 16/100⟩]

/-- `DEFAULT_PRICING["zones"]["default"]["tiers"]`. -/
def defaultZoneTiers : List Tier := [⟨none, 87/1000⟩]

/-- `DEFAULT_PRICING["zones"]` as an association list. -/
def defaultPricingZones : List (String × List Tier) :=
  [("zone1", zone1Tiers), ("zone2", zone2Tiers), ("zone3", zone3Tiers),
   ("default", defaultZoneTiers)]

/-- `DEFAULT_REGION_MAP`: region code to pricing zone. -/
def defaultRegionMap : List (String × String) :=
  [("eastus", "zone1"), ("eastus2", "zone1"), ("westus", "zone1"),
   ("westus2", "zone1"), ("centralus", "zone1"), ("northcentralus", "zone1"),
   ("southcentralus", "zone1"), ("westcentralus", "zone1"),
   ("canadacentral", "zone1"), ("canadaeast", "zone1"),
   ("northeurope", "zone1"), ("westeurope", "zone1"), ("uksouth", "zone1"),
   ("ukwest", "zone1"), ("francecentral", "zone1"), ("francesouth", "zone1"),
   ("germanywestcentral", "zone1"), ("germanynorth", "zone1"),
   ("eastasia", "zone2"), ("southeastasia", "zone2"),
   ("australiaeast", "zone2"), ("australiasoutheast", "zone2"),
   ("australiacentral", "zone2"), ("japaneast", "zone2"),
   ("japanwest", "zone2"), ("koreacentral", "zone2"), ("koreasouth", "zone2"),
   ("centralindia", "zone2"), ("southindia", "zone2"), ("westindia", "zone2"),
   ("brazilsouth", "zone3"), ("brazilsoutheast", "zone3"),
   ("unknown", "default")]

/-- Association-list lookup by string key (Python `dict.get`). -/
def lookupStr (m : List (String × α)) (k : String) : Option α :=
  match m with
  | [] => none
  | (k0, v) :: rest => if k0 = k then some v else lookupStr rest k

/-- The tier walk of `CostAnalyzer.calculate_egress_cost` (lines 309-330):
the first tier bills `min(remaining, limit)`; each later tier bills
`min(remaining, limit - previous_limit)`; the walk stops as soon as the
remaining volume reaches zero.  `prev` is the previous tier limit (0 for the
first tier).  An unbounded tier absorbs the whole remainder, after which the
remaining volume is 0 and the walk always stops, so the previous-limit value
passed on after an unbounded tier is never consulted. -/
def walkTiers : List Tier → ℚ → ℚ → ℚ
  | [], _, _ => 0
  | t :: rest, prev, remaining =>
    match t.limit_gb with
    | none =>
      -- tier_gb = min(remaining, inf) = remaining, after which the updated
      -- remainder is 0 and the loop breaks.
      remaining * t.price
    | some l =>
      let tierGb := min remaining (l - prev)
      if remaining - tierGb ≤ 0 then tierGb * t.price
      else tierGb * t.price + walkTiers rest l (remaining - tierGb)

/-- Region normalisation and zone lookup of `calculate_egress_cost`
(lines 301-307): falsy region becomes "unknown", else lowercase; unmapped
regions fall back to the "default" zone. -/
def regionTiers (region : String) : List Tier :=
  (lookupStr defaultPricingZones
    ((lookupStr defaultRegionMap
        (if region = "" then "unknown" else asciiLower region)).getD "default")).getD
    defaultZoneTiers

/-- `CostAnalyzer.calculate_egress_cost(gb, region)` with the default pricing
configuration. -/
def calculate_egress_cost (gb : ℚ) (region : String) : ℚ :=
  walkTiers (regionTiers region) 0 gb

/-- Modelled from the spec: the progressive-bracket cost the specification
describes — within each tier, the volume from the previous tier cap up to
this tier cap (`limit_gb`) is billed at this tier price, the remainder rolls
into the next tier, and a final unbounded tier absorbs the rest.  Stated as
the closed form: tier `i` contributes `price_i * max(min(gb, L_i) - L_{i-1}, 0)`. -/
def specProgressiveBracketCost : List Tier → ℚ → ℚ → ℚ
  | [], _, _ => 0
  | t :: rest, prev, gb =>
    match t.limit_gb with
    | none => t.price * max (gb - prev) 0
    | some l => t.price * max (min gb l - prev) 0 + specProgressiveBracketCost rest l gb

/-- Well-formedness of a tier table from lower bound `prev`: prices are
non-negative and bounded tier caps are non-decreasing. -/
def TiersWF : ℚ → List Tier → Prop
  | _, [] => True
  | prev, t :: rest =>
    0 ≤ t.price ∧
      match t.limit_gb with
      | none => True
      | some l => prev ≤ l ∧ TiersWF l rest
/-- Membership of a volume in the `j`-th pricing bracket of a tier table whose
previous cumulative cap is `prev` (bracket `j` covers volumes from the cap of
tier `j-1` up to the cap of tier `j`; brackets overlap at shared endpoints). -/
def InBracket : ℚ → List Tier → ℕ → ℚ → Prop
  | prev, t :: _, 0, gb => prev ≤ gb ∧ ∀ l, t.limit_gb = some l → gb ≤ l
  | _, t :: rest, j + 1, gb => ∃ l, t.limit_gb = some l ∧ InBracket l rest j gb
  | _, [], _, _ => False

/-- Configured price of the `j`-th tier (0 out of range). -/
def priceAt (tiers : List Tier) (j : ℕ) : ℚ := ((tiers.get? j).map Tier.price).getD 0

end Egress

namespace Egress

/-! ### Shared dataset model -/

/-- One row of the tabular metrics dataset (one MetricSample).  Timestamps
are UTC instants modelled as epoch seconds. -/
structure Row where
  resource_id : String
  resource_name : String
  resource_type : String
  location : String
  metric_name : String
  timestamp : ℤ
  value : ℚ
deriving DecidableEq, Repr

/-- The egress filter every analyzer applies first. -/
def egressRows (ds : List Row) : List Row :=
  ds.filter (fun r => isEgressMetric r.metric_name)

end Egress

namespace Egress

/-! ### TrendAnalyzer (src/src/egress/trend_analysis.py) -/

/-- Distinct timestamps of the rows, ascending (`groupby('timestamp')` then
`sort_values('timestamp')`). -/
def aggTimes (e : List Row) : List ℤ :=
  sortedKeys (fun a b => decide (a ≤ b)) (e.map (·.timestamp))

/-- Aggregated value series: for each distinct timestamp in ascending order,
the sum of the values of the rows carrying it. -/
def aggVals (e : List Row) : List ℚ :=
  (aggTimes e).map (fun t => qsum ((e.filter (fun r => r.timestamp = t)).map (·.value)))

/-- The per-point percent changes of the aggregated series: `none` models the
NaN that pandas produces for the first point, for a division 0/0, and for the
±inf values the source explicitly replaces by NaN (previous value 0). -/
def pctChanges (a : List ℚ) : List (Option ℚ) :=
  (List.range a.length).map (fun i =>
    if i = 0 then none
    else if a.getD (i - 1) 0 = 0 then none
    else some ((a.getD i 0 - a.getD (i - 1) 0) / a.getD (i - 1) 0 * 100))

/-- Ordinary least-squares slope of value against index 0,1,2,…
(`np.polyfit(x, y, 1)`), in closed form. -/
def olsSlope (a : List ℚ) : ℚ :=
  let n : ℚ := a.length
  let sx := qsum ((List.range a.length).map (fun i => (i : ℚ)))
  let sy := qsum a
  let sxy := qsum (a.enum.map (fun p => (p.1 : ℚ) * p.2))
  let sxx := qsum ((List.range a.length).map (fun i => ((i : ℚ)) ^ 2))
  (n * sxy - sx * sy) / (n * sxx - sx ^ 2)

/-- Ordinary least-squares intercept paired with `olsSlope`. -/
def olsIntercept (a : List ℚ) : ℚ :=
  let n : ℚ := a.length
  let sx := qsum ((List.range a.length).map (fun i => (i : ℚ)))
  (qsum a - olsSlope a * sx) / n

/-- R² of the fit: `1 - ss_residual / ss_total`, 0 when the total sum of
squares is 0. -/
def olsR2 (a : List ℚ) : ℚ :=
  let ybar := qmean a
  let ssTotal := qsum (a.map (fun y => (y - ybar) ^ 2))
  let ssRes := qsum (a.enum.map (fun p => (p.2 - (olsSlope a * p.1 + olsIntercept a)) ^ 2))
  if ssTotal ≠ 0 then 1 - ssRes / ssTotal else 0

/-- The direction/strength classification block of `analyze_overall_trend`
(lines 104-122), as a function of the normalized slope percent. -/
def classifyTrend (ns : ℚ) : String × String :=
  if |ns| < 1 then ("stable", "none")
  else if ns > 0 then
    ("increasing",
      if ns > 10 then "strong" else if ns > 5 then "moderate" else "weak")
  else
    ("decreasing",
      if ns < -10 then "strong" else if ns < -5 then "moderate" else "weak")

/-- The fields of a successful overall-trend analysis.  `Option ℚ` fields
use `none` for NaN (avg of an all-NaN column) or a Python `None`. -/
structure TrendSuccess where
  direction : String
  strength : String
  confidence : ℚ
  avg_change_percent : Option ℚ
  latest_change_percent : ℚ
  slope : ℚ
  normalized_slope_percent : ℚ
  r_squared : ℚ
  min_value : ℚ
  max_value : ℚ
  current_value : ℚ
  day_over_day_percent : Option ℚ
  week_over_week_percent : Option ℚ
  timepoints : ℕ
deriving DecidableEq, Repr

/-- Result of `analyze_overall_trend`: one constructor per `status` value the
function can return. -/
inductive TrendOutcome
  | no_data
  | no_egress_data
  | insufficient_data (message : String) (data_points : ℕ)
  | error (error : String)
  | success (r : TrendSuccess)
deriving DecidableEq, Repr

/-- `status` field of a trend result. -/
def TrendOutcome.status : TrendOutcome → String
  | .no_data => "no_data"
  | .no_egress_data => "no_egress_data"
  | .insufficient_data _ _ => "insufficient_data"
  | .error _ => "error"
  | .success _ => "success"

/-- `min_data_points` of the trend configuration (default 3). -/
def trendMinDataPoints : ℕ := 3

/-- `TrendAnalyzer.analyze_overall_trend` with the default configuration.
The only exception that can escape the arithmetic of the `try` block is the
`IndexError` of `.iloc[-1]` on an empty all-NaN percent-change column, which
the source catches and converts to an `error` status. -/
def analyze_overall_trend (ds : List Row) : TrendOutcome :=
  if ds.isEmpty then .no_data
  else
    let e := egressRows ds
    if e.isEmpty then .no_egress_data
    else
      let a := aggVals e
      let n := a.length
      if n < trendMinDataPoints then
        .insufficient_data "Need at least 3 data points for trend analysis" n
      else
        let pcts := pctChanges a
        let defined := pcts.filterMap id
        let avgPct : Option ℚ := if defined.isEmpty then none else some (qmean defined)
        let reg : ℚ × ℚ × String × String × ℚ × ℚ :=
          if 3 ≤ n then
            let slope := olsSlope a
            let r2 := olsR2 a
            let conf := min |r2 * 100| 100
            let avgv := qmean a
            let ns := if avgv ≠ 0 then slope / avgv * 100 else 0
            let c := classifyTrend ns
            (slope, r2, c.1, c.2, conf, ns)
          else (0, 0, "unknown", "unknown", 0, 0)
        let latestOpt : Option ℚ := if 1 < n then defined.getLast? else some 0
        match latestOpt with
        | none => .error "single positional indexer is out-of-bounds"
        | some latest =>
          .success {
            direction := reg.2.2.1
            strength := reg.2.2.2.1
            confidence := reg.2.2.2.2.1
            avg_change_percent := avgPct
            latest_change_percent := latest
            slope := reg.1
            normalized_slope_percent := reg.2.2.2.2.2
            r_squared := reg.2.1
            min_value := qmin a
            max_value := qmax a
            current_value := a.getD (n - 1) 0
            day_over_day_percent :=
              if 2 ≤ n then
                some (if a.getD (n - 2) 0 = 0 then 0
                  else (a.getD (n - 1) 0 - a.getD (n - 2) 0) / a.getD (n - 2) 0 * 100)
              else none
            week_over_week_percent :=
              if 7 ≤ n then
                some (if a.getD (n - 7) 0 = 0 then 0
                  else (a.getD (n - 1) 0 - a.getD (n - 7) 0) / a.getD (n - 7) 0 * 100)
              else none
            timepoints := n }

/-- Direction, strength and normalized slope of a successful trend analysis
(`none` for every other status). -/
def TrendOutcome.classification : TrendOutcome → Option (String × String × ℚ)
  | .success r => some (r.direction, r.strength, r.normalized_slope_percent)
  | _ => none

/-- Day-over-day and week-over-week fields of a successful trend analysis. -/
def TrendOutcome.deltas : TrendOutcome → Option (Option ℚ × Option ℚ)
  | .success r => some (r.day_over_day_percent, r.week_over_week_percent)
  | _ => none

/-- A perfectly flat egress series: three timestamps, constant value 5. -/
def flatTrendDs : List Row :=
  [⟨"r1", "vm1", "t", "eastus", "out", 0, 5⟩,
   ⟨"r1", "vm1", "t", "eastus", "out", 3600, 5⟩,
   ⟨"r1", "vm1", "t", "eastus", "out", 7200, 5⟩]

/-- A rising egress series 85, 100, 115 whose ordinary-least-squares slope is
15 against a mean of 100, i.e. a normalized slope of exactly 15 percent. -/
def risingTrendDs : List Row :=
  [⟨"r1", "vm1", "t", "eastus", "out", 0, 85⟩,
   ⟨"r1", "vm1", "t", "eastus", "out", 3600, 100⟩,
   ⟨"r1", "vm1", "t", "eastus", "out", 7200, 115⟩]

/-- Seven aggregated points 1,…,7 (hourly timestamps), for the week-over-week
lookback. -/
def sevenPointDs : List Row :=
  [⟨"r1", "vm1", "t", "eastus", "out", 0, 1⟩,
   ⟨"r1", "vm1", "t", "eastus", "out", 3600, 2⟩,
   ⟨"r1", "vm1", "t", "eastus", "out", 7200, 3⟩,
   ⟨"r1", "vm1", "t", "eastus", "out", 10800, 4⟩,
   ⟨"r1", "vm1", "t", "eastus", "out", 14400, 5⟩,
   ⟨"r1", "vm1", "t", "eastus", "out", 18000, 6⟩,
   ⟨"r1", "vm1", "t", "eastus", "out", 21600, 7⟩]

/-- pandas `dt.dayofweek` (Monday = 0) for an epoch-second instant:
1970-01-01 was a Thursday. -/
def dayOfWeek (t : ℤ) : ℤ := (Int.fdiv t 86400 + 3) % 7

/-- pandas `dt.hour` for an epoch-second instant. -/
def hourOfDay (t : ℤ) : ℤ := (t % 86400) / 3600

/-- `day_names` of `detect_weekly_patterns`. -/
def dayNames : List String :=
  ["Monday", "Tuesday", "Wednesday", "Thursday", "Friday", "Saturday", "Sunday"]

/-- Fields of a successful weekly-pattern analysis; `none` models the NaN
averages pandas yields on an empty selection. -/
structure WeeklySuccess where
  has_pattern : Bool
  peak_days : List String
  low_days : List String
  weekend_avg : Option ℚ
  weekday_avg : Option ℚ
  weekend_weekday_percent_diff : Option ℚ
  daily_stats : List (String × (ℚ × ℚ))
deriving DecidableEq, Repr

/-- Result of `detect_weekly_patterns`. -/
inductive WeeklyOutcome
  | no_data
  | no_egress_data
  | insufficient_data (message : String) (days_available : ℕ)
  | error (error : String)
  | success (r : WeeklySuccess)
deriving DecidableEq, Repr

/-- `status` field of a weekly result. -/
def WeeklyOutcome.status : WeeklyOutcome → String
  | .no_data => "no_data"
  | .no_egress_data => "no_egress_data"
  | .insufficient_data _ _ => "insufficient_data"
  | .error _ => "error"
  | .success _ => "success"

/-- `TrendAnalyzer.detect_weekly_patterns`. -/
def detect_weekly_patterns (ds : List Row) : WeeklyOutcome :=
  if ds.isEmpty then .no_data
  else
    let e := egressRows ds
    if e.isEmpty then .no_egress_data
    else
      let days := sortedKeys (fun a b => decide (a ≤ b)) (e.map (fun r => dayOfWeek r.timestamp))
      let dayAvg := days.map (fun d =>
        (d, qmean ((e.filter (fun r => dayOfWeek r.timestamp = d)).map (·.value))))
      if dayAvg.length < 3 then
        .insufficient_data "Need data from at least 3 different days of the week" dayAvg.length
      else
        let overall := qmean (dayAvg.map (·.2))
        let peaks := dayAvg.filter (fun p => overall * (12/10 : ℚ) ≤ p.2)
        let lows := dayAvg.filter (fun p => p.2 ≤ overall * (8/10 : ℚ))
        let peakNames := peaks.map (fun p => dayNames.getD p.1.toNat "")
        let lowNames := lows.map (fun p => dayNames.getD p.1.toNat "")
        let weekdayRows := e.filter (fun r => dayOfWeek r.timestamp < 5)
        let weekendRows := e.filter (fun r => 5 ≤ dayOfWeek r.timestamp)
        let weekdayAvg : Option ℚ :=
          if weekdayRows.isEmpty then none else some (qmean (weekdayRows.map (·.value)))
        let weekendAvg : Option ℚ :=
          if weekendRows.isEmpty then none else some (qmean (weekendRows.map (·.value)))
        let diff : Option ℚ :=
          match weekdayAvg with
          | some w =>
            if 0 < w then
              match weekendAvg with
              | some x => some ((x - w) / w * 100)
              | none => none
            else some 0
          | none => some 0
        let hasPattern : Bool :=
          !peakNames.isEmpty || !lowNames.isEmpty ||
            (match diff with | some d => decide (|d| > 15) | none => false)
        .success {
          has_pattern := hasPattern
          peak_days := peakNames
          low_days := lowNames
          weekend_avg := weekendAvg
          weekday_avg := weekdayAvg
          weekend_weekday_percent_diff := diff
          daily_stats := dayAvg.map (fun p =>
            (dayNames.getD p.1.toNat "",
              (p.2, if overall ≠ 0 then p.2 / overall * 100 else 0))) }

/-- Fields of a successful hourly-pattern analysis. -/
structure HourlySuccess where
  has_pattern : Bool
  peak_hours : List ℤ
  low_hours : List ℤ
  business_hours_avg : Option ℚ
  after_hours_avg : Option ℚ
  business_hours_percent_diff : Option ℚ
  hourly_stats : List (String × (ℚ × ℚ))
deriving DecidableEq, Repr

/-- Result of `detect_hourly_patterns`. -/
inductive HourlyOutcome
  | no_data
  | no_egress_data
  | insufficient_data (message : String) (hours_available : ℕ)
  | error (error : String)
  | success (r : HourlySuccess)
deriving DecidableEq, Repr

/-- `status` field of an hourly result. -/
def HourlyOutcome.status : HourlyOutcome → String
  | .no_data => "no_data"
  | .no_egress_data => "no_egress_data"
  | .insufficient_data _ _ => "insufficient_data"
  | .error _ => "error"
  | .success _ => "success"

/-- `TrendAnalyzer.detect_hourly_patterns`. -/
def detect_hourly_patterns (ds : List Row) : HourlyOutcome :=
  if ds.isEmpty then .no_data
  else
    let e := egressRows ds
    if e.isEmpty then .no_egress_data
    else
      let hours := sortedKeys (fun a b => decide (a ≤ b)) (e.map (fun r => hourOfDay r.timestamp))
      let hourAvg := hours.map (fun h =>
        (h, qmean ((e.filter (fun r => hourOfDay r.timestamp = h)).map (·.value))))
      if hourAvg.length < 6 then
        .insufficient_data "Need data from at least 6 different hours of the day" hourAvg.length
      else
        let overall := qmean (hourAvg.map (·.2))
        let peaks := hourAvg.filter (fun p => overall * (12/10 : ℚ) ≤ p.2)
        let lows := hourAvg.filter (fun p => p.2 ≤ overall * (8/10 : ℚ))
        let businessRows := e.filter (fun r => 9 ≤ hourOfDay r.timestamp ∧ hourOfDay r.timestamp < 17)
        let afterRows := e.filter (fun r => ¬(9 ≤ hourOfDay r.timestamp ∧ hourOfDay r.timestamp < 17))
        let businessAvg : Option ℚ :=
          if businessRows.isEmpty then none else some (qmean (businessRows.map (·.value)))
        let afterAvg : Option ℚ :=
          if afterRows.isEmpty then none else some (qmean (afterRows.map (·.value)))
        let diff : Option ℚ :=
          match afterAvg with
          | some x =>
            if 0 < x then
              match businessAvg with
              | some b => some ((b - x) / x * 100)
              | none => none
            else some 0
          | none => some 0
        let hasPattern : Bool :=
          !peaks.isEmpty || !lows.isEmpty ||
            (match diff with | some d => decide (|d| > 20) | none => false)
        .success {
          has_pattern := hasPattern
          peak_hours := peaks.map (·.1)
          low_hours := lows.map (·.1)
          business_hours_avg := businessAvg
          after_hours_avg := afterAvg
          business_hours_percent_diff := diff
          hourly_stats := hourAvg.map (fun p =>
            (toString p.1, (p.2, if overall ≠ 0 then p.2 / overall * 100 else 0))) }

end Egress

namespace Egress

/-! ### AnomalyDetector (src/src/egress/anomaly_detection.py) -/

/-- Exact representation of an anomaly score of the form `num / sqrt(den)`:
z-scores are `(value - mean) / sqrt(variance)`, moving-average scores are
`diff / sqrt(variance_of_diffs)`, and MAD scores are rational (`den = 1`).
Every score the detectors construct has `den > 0`.  The source only ever
compares absolute values of scores, which is done exactly on squares. -/
structure Score where
  num : ℚ
  den : ℚ
deriving DecidableEq, Repr

/-- `|s| > |t|` for scores with positive `den`. -/
def Score.absGt (s t : Score) : Bool := decide (s.num ^ 2 * t.den > t.num ^ 2 * s.den)

/-- `|s| ≥ |t|` as the comparator of the descending stable sort. -/
def Score.absGe (s t : Score) : Bool := !(Score.absGt t s)

/-- The severity banding block shared by the three detectors (for an already
flagged point): "high" when `|score| > 2·threshold`, "low" when
`|score| ≤ 1.2·threshold`, else "medium". -/
def severityBand (s : Score) (thr : ℚ) : String :=
  if s.num ^ 2 > (2 * thr) ^ 2 * s.den then "high"
  else if s.num ^ 2 ≤ ((12/10) * thr) ^ 2 * s.den then "low"
  else "medium"

/-- One `AnomalyResult` of the source. -/
structure AnomalyEntry where
  resource_id : String
  resource_name : String
  timestamp : ℤ
  value : ℚ
  expected_value : ℚ
  score : Score
  algorithm : String
  metric_name : String
  severity : String
deriving DecidableEq, Repr

/-- Lexicographic comparator on (resource_id, resource_name) group keys. -/
def strPairLe (a b : String × String) : Bool :=
  decide (a.1 < b.1) || (decide (a.1 = b.1) && strLe a.2 b.2)

/-- The sorted (resource_id, resource_name) group keys of a pandas
`groupby(['resource_id', 'resource_name'])`. -/
def resourcePairs (e : List Row) : List (String × String) :=
  sortedKeys strPairLe (e.map (fun r => (r.resource_id, r.resource_name)))

/-- Defaults of `AnomalyConfig`. -/
def anomalyMinDataPoints : ℕ := 5

/-- `AnomalyConfig.zscore_threshold` default. -/
def zscoreThreshold : ℚ := 3

/-- `AnomalyConfig.mad_threshold` default. -/
def madThreshold : ℚ := 7/2

/-- `AnomalyConfig.moving_avg_window` default. -/
def movingAvgWindow : ℕ := 5

/-- `AnomalyConfig.peak_detection_threshold` default. -/
def peakDetectionThreshold : ℚ := 3

/-- pandas sample variance (`std()**2`, ddof = 1); only queried on series of
length at least 2. -/
def sampleVar (vs : List ℚ) : ℚ :=
  qsum (vs.map (fun v => (v - qmean vs) ^ 2)) / ((vs.length : ℚ) - 1)

/-- pandas median. -/
def median (vs : List ℚ) : ℚ :=
  let s := stableSortBy qle vs
  let n := s.length
  if n = 0 then 0
  else if n % 2 = 1 then s.getD (n / 2) 0
  else (s.getD (n / 2 - 1) 0 + s.getD (n / 2) 0) / 2

/-- Builds one `AnomalyResult`, with the severity banding applied to the
score at the given threshold (the block each detector repeats). -/
def mkAnomalyEntry (rp : String × String) (mn alg : String) (ts : ℤ) (v expected : ℚ)
    (score : Score) (thr : ℚ) : AnomalyEntry :=
  { resource_id := rp.1, resource_name := rp.2, timestamp := ts, value := v,
    expected_value := expected, score := score, algorithm := alg, metric_name := mn,
    severity := severityBand score thr }

/-- The double `groupby` loop shared by the three detectors: outer groups by
(resource_id, resource_name) and inner groups by metric_name, both in sorted
key order with the original row order kept inside each group; `f` processes
one (resource, metric) series. -/
def groupsOf (e : List Row)
    (f : String × String → String → List Row → List AnomalyEntry) : List AnomalyEntry :=
  (resourcePairs e).flatMap (fun rp =>
    let sub := e.filter (fun r => decide (r.resource_id = rp.1 ∧ r.resource_name = rp.2))
    (sortedKeys strLe (sub.map (·.metric_name))).flatMap (fun mn =>
      f rp mn (sub.filter (fun r => decide (r.metric_name = mn)))))

/-- One (resource, metric) series of `_detect_zscore_anomalies`: at least 5
points and non-zero variance required; flag `|z| > 3` where
`z = (value - mean) / std`. -/
def zscoreGroup (rp : String × String) (mn : String) (mdf : List Row) : List AnomalyEntry :=
  if mdf.length < anomalyMinDataPoints then []
  else
    let vals := mdf.map (·.value)
    let meanV := qmean vals
    let varV := sampleVar vals
    if varV = 0 then []
    else
      (mdf.filter (fun r => decide ((r.value - meanV) ^ 2 > zscoreThreshold ^ 2 * varV))).map
        (fun r => mkAnomalyEntry rp mn "zscore" r.timestamp r.value meanV
          ⟨r.value - meanV, varV⟩ zscoreThreshold)

/-- `AnomalyDetector._detect_zscore_anomalies`. -/
def detect_zscore_anomalies (e : List Row) : List AnomalyEntry := groupsOf e zscoreGroup

/-- One (resource, metric) series of `_detect_mad_anomalies`: modified
z-score `0.6745 (value - median) / MAD`, flagged when its absolute value
exceeds 3.5; groups with MAD = 0 are skipped. -/
def madGroup (rp : String × String) (mn : String) (mdf : List Row) : List AnomalyEntry :=
  if mdf.length < anomalyMinDataPoints then []
  else
    let vals := mdf.map (·.value)
    let medV := median vals
    let mad := median (vals.map (fun v => |v - medV|))
    if mad = 0 then []
    else
      (mdf.filter (fun r =>
          decide (|(6745/10000 : ℚ) * (r.value - medV) / mad| > madThreshold))).map
        (fun r => mkAnomalyEntry rp mn "mad" r.timestamp r.value medV
          ⟨(6745/10000 : ℚ) * (r.value - medV) / mad, 1⟩ madThreshold)

/-- `AnomalyDetector._detect_mad_anomalies`. -/
def detect_mad_anomalies (e : List Row) : List AnomalyEntry := groupsOf e madGroup

/-- Rolling mean with window `w` and `min_periods = w`: defined from index
`w - 1` on. -/
def rollingMean (w : ℕ) (vs : List ℚ) (i : ℕ) : Option ℚ :=
  if w ≤ i + 1 then some (qmean ((vs.drop (i + 1 - w)).take w)) else none

/-- One (resource, metric) series of `_detect_moving_avg_anomalies`: at least
`window + 2` points sorted by timestamp; each point with a full window is
scored by `(value - rolling_mean) / std(value - rolling_mean)` and flagged
when the absolute score exceeds 3; series whose difference column has zero
variance are skipped. -/
def movingAvgGroup (rp : String × String) (mn : String) (mdf : List Row) : List AnomalyEntry :=
  if mdf.length < movingAvgWindow + 2 then []
  else
    let sorted := stableSortBy (fun r s => decide (r.timestamp ≤ s.timestamp)) mdf
    let vs := sorted.map (·.value)
    let diffs := (List.range vs.length).filterMap
      (fun i => (rollingMean movingAvgWindow vs i).map (fun m => vs.getD i 0 - m))
    let varD := sampleVar diffs
    if varD = 0 then []
    else
      -- points whose rolling mean is NaN are excluded by the isna filter
      sorted.enum.filterMap (fun p =>
        (rollingMean movingAvgWindow vs p.1).bind (fun m =>
          if decide (((p.2.value - m) ^ 2 : ℚ) > peakDetectionThreshold ^ 2 * varD) then
            some (mkAnomalyEntry rp mn "moving_average" p.2.timestamp p.2.value m
              ⟨p.2.value - m, varD⟩ peakDetectionThreshold)
          else none))

/-- `AnomalyDetector._detect_moving_avg_anomalies`. -/
def detect_moving_avg_anomalies (e : List Row) : List AnomalyEntry := groupsOf e movingAvgGroup

/-- Deduplication key: `(resource_id, timestamp, metric_name)`. -/
def anomalyKey (a : AnomalyEntry) : String × ℤ × String :=
  (a.resource_id, a.timestamp, a.metric_name)

/-- One step of building `best_anomalies`: dict insertion keeps the position
of an existing key and replaces its value only when the new score is strictly
larger in absolute value. -/
def upsertAnomaly (m : List ((String × ℤ × String) × AnomalyEntry)) (a : AnomalyEntry) :
    List ((String × ℤ × String) × AnomalyEntry) :=
  match m with
  | [] => [(anomalyKey a, a)]
  | (k, b) :: rest =>
    if k = anomalyKey a then (k, if Score.absGt a.score b.score then a else b) :: rest
    else (k, b) :: upsertAnomaly rest a

/-- The `best_anomalies` dict of `_deduplicate_anomalies`, as an association
list in key-insertion order. -/
def dedupMap (l : List AnomalyEntry) : List ((String × ℤ × String) × AnomalyEntry) :=
  l.foldl upsertAnomaly []

/-- `AnomalyDetector._deduplicate_anomalies`. -/
def deduplicate_anomalies (l : List AnomalyEntry) : List AnomalyEntry :=
  (dedupMap l).map (·.2)

/-- Association-list lookup with a decidable key type (first match). -/
def alookup [DecidableEq κ] (m : List (κ × α)) (k : κ) : Option α :=
  match m with
  | [] => none
  | (k0, v) :: rest => if k0 = k then some v else alookup rest k

/-- The entry `_deduplicate_anomalies` keeps for key `k` (the value of
`best_anomalies[k]`), if any candidate carries that key. -/
def dedupLookup (l : List AnomalyEntry) (k : String × ℤ × String) : Option AnomalyEntry :=
  alookup (dedupMap l) k

/-- The per-key selection step: the first candidate is kept, and a later one
replaces the current holder exactly when its absolute score is strictly
larger. -/
def stepA (o : Option AnomalyEntry) (a : AnomalyEntry) : Option AnomalyEntry :=
  match o with
  | none => some a
  | some b => some (if Score.absGt a.score b.score then a else b)

/-- A concrete deduplication candidate with the given resource, timestamp,
rational score and algorithm (the shape of the fixtures of
`test_deduplicate_anomalies`). -/
def c5entry (rid : String) (ts : ℤ) (sc : ℚ) (alg : String) : AnomalyEntry :=
  { resource_id := rid, resource_name := "Unknown", timestamp := ts, value := 0,
    expected_value := 0, score := ⟨sc, 1⟩, algorithm := alg, metric_name := "m1",
    severity := "medium" }

/-- A z-score candidate and a MAD candidate at the same key whose scores have
equal absolute value (3 and -3). -/
def c10z : AnomalyEntry :=
  { resource_id := "res1", resource_name := "r", timestamp := 1, value := 9,
    expected_value := 3, score := ⟨3, 1⟩, algorithm := "zscore", metric_name := "m1",
    severity := "medium" }

/-- The MAD-side candidate of the tie. -/
def c10m : AnomalyEntry :=
  { resource_id := "res1", resource_name := "r", timestamp := 1, value := 9,
    expected_value := 3, score := ⟨-3, 1⟩, algorithm := "mad", metric_name := "m1",
    severity := "medium" }

/-- The dictionary produced by `AnomalyResult.to_dict`; `deviation_percent`
is `none` for the `float('inf')` case (expected 0, value positive). -/
structure AnomalyDict where
  resource_id : String
  resource_name : String
  timestamp : ℤ
  value : ℚ
  expected_value : ℚ
  score : Score
  algorithm : String
  metric_name : String
  severity : String
  deviation_percent : Option ℚ
deriving DecidableEq, Repr

/-- `AnomalyResult.to_dict`. -/
def anomalyToDict (a : AnomalyEntry) : AnomalyDict :=
  { resource_id := a.resource_id, resource_name := a.resource_name,
    timestamp := a.timestamp, value := a.value, expected_value := a.expected_value,
    score := a.score, algorithm := a.algorithm, metric_name := a.metric_name,
    severity := a.severity,
    deviation_percent :=
      if a.expected_value = 0 then (if 0 < a.value then none else some 0)
      else some ((a.value - a.expected_value) / |a.expected_value| * 100) }

/-- The `summary` block of a successful detection. -/
structure AnomalySummary where
  total_anomalies : ℕ
  total_resources_with_anomalies : ℕ
  detection_methods : List String
  zscore_count : ℕ
  mad_count : ℕ
  moving_average_count : ℕ
  high_count : ℕ
  medium_count : ℕ
  low_count : ℕ
deriving DecidableEq, Repr

/-- Fields of a successful `detect_anomalies` call.  `timestamp` is the
wall-clock reading `datetime.utcnow().isoformat()` taken inside the call. -/
structure AnomalySuccess where
  timestamp : String
  summary : AnomalySummary
  anomalies : List AnomalyDict
  by_resource : List (String × List AnomalyDict)
deriving DecidableEq, Repr

/-- Result of `detect_anomalies`. -/
inductive AnomalyOutcome
  | no_data
  | no_egress_data
  | error (error : String)
  | success (r : AnomalySuccess)
deriving DecidableEq, Repr

/-- `status` field of an anomaly result. -/
def AnomalyOutcome.status : AnomalyOutcome → String
  | .no_data => "no_data"
  | .no_egress_data => "no_egress_data"
  | .error _ => "error"
  | .success _ => "success"

/-- `AnomalyDetector.detect_anomalies` with the default configuration; `now`
is the wall-clock reading the source embeds into the success payload. -/
def detect_anomalies (ds : List Row) (now : String) : AnomalyOutcome :=
  if ds.isEmpty then .no_data
  else
    let e := egressRows ds
    if e.isEmpty then .no_egress_data
    else
      let z := detect_zscore_anomalies e
      let m := detect_mad_anomalies e
      let ma := detect_moving_avg_anomalies e
      let uniq := deduplicate_anomalies (z ++ m ++ ma)
      let sorted := stableSortBy (fun a b => Score.absGe a.score b.score) uniq
      let resIds := firstSeen (sorted.map (·.resource_id))
      let byRes := resIds.map (fun rid =>
        (rid, (sorted.filter (fun a => decide (a.resource_id = rid))).map anomalyToDict))
      .success {
        timestamp := now
        summary := {
          total_anomalies := sorted.length
          total_resources_with_anomalies := byRes.length
          detection_methods := ["zscore", "mad", "moving_average"]
          zscore_count := z.length
          mad_count := m.length
          moving_average_count := ma.length
          high_count := (sorted.filter (fun a => decide (a.severity = "high"))).length
          medium_count := (sorted.filter (fun a => decide (a.severity = "medium"))).length
          low_count := (sorted.filter (fun a => decide (a.severity = "low"))).length }
        anomalies := sorted.map anomalyToDict
        by_resource := byRes }

end Egress

namespace Egress

/-! ### CostAnalyzer.analyze_costs and recommendations -/

/-- One entry of the `resources` list of a cost analysis. -/
structure ResourceCost where
  resource_id : String
  resource_name : String
  resource_type : String
  region : String
  egress_gb : ℚ
  cost : ℚ
  percentage_of_total : ℚ
deriving DecidableEq, Repr

/-- One entry of the `by_region` mapping. -/
structure RegionCost where
  egress_gb : ℚ
  cost : ℚ
  percentage_of_total : ℚ
deriving DecidableEq, Repr

/-- The `monthly_projection` block. -/
structure MonthlyProjection where
  egress_gb : ℚ
  cost : ℚ
deriving DecidableEq, Repr

/-- Fields of a successful `analyze_costs` call. -/
structure CostSuccess where
  cost_status : String
  egress_gb : ℚ
  total_cost : ℚ
  currency : String
  time_period_days : ℚ
  resources : List ResourceCost
  by_region : List (String × RegionCost)
  monthly_projection : Option MonthlyProjection
  projection_warning : Option String
deriving DecidableEq, Repr

/-- Result of `analyze_costs`. -/
inductive CostOutcome
  | no_data
  | no_egress_data
  | error (error : String)
  | success (r : CostSuccess)
deriving DecidableEq, Repr

/-- `status` field of a cost result. -/
def CostOutcome.status : CostOutcome → String
  | .no_data => "no_data"
  | .no_egress_data => "no_egress_data"
  | .error _ => "error"
  | .success _ => "success"

/-- `threshold_warning` default. -/
def costThresholdWarning : ℚ := 100

/-- `threshold_critical` default. -/
def costThresholdCritical : ℚ := 500

/-- Bytes per gigabyte. -/
def bytesPerGb : ℚ := 1024 * 1024 * 1024

/-- Comparator for the 4-component resource group key
(resource_id, resource_name, resource_type, location). -/
def rkeyLe (a b : String × String × String × String) : Bool :=
  decide (a.1 < b.1) || (decide (a.1 = b.1) &&
    (decide (a.2.1 < b.2.1) || (decide (a.2.1 = b.2.1) &&
      (decide (a.2.2.1 < b.2.2.1) || (decide (a.2.2.1 = b.2.2.1) &&
        strLe a.2.2.2 b.2.2.2)))))

/-- `CostAnalyzer.analyze_costs` with the default configuration. -/
def analyze_costs (ds : List Row) : CostOutcome :=
  if ds.isEmpty then .no_data
  else
    let e := egressRows ds
    if e.isEmpty then .no_egress_data
    else
      let totalGb := qsum (e.map (·.value)) / bytesPerGb
      let rkeys := sortedKeys rkeyLe (e.map (fun r =>
        (r.resource_id, r.resource_name, r.resource_type, r.location)))
      let resources := rkeys.map (fun k =>
        let gb := qsum ((e.filter (fun r =>
          decide ((r.resource_id, r.resource_name, r.resource_type, r.location) = k))).map
            (·.value)) / bytesPerGb
        (k, gb, calculate_egress_cost gb k.2.2.2))
      let totalCost := qsum (resources.map (fun p => p.2.2))
      let regions := sortedKeys strLe (e.map (·.location))
      let regionCosts := regions.map (fun loc =>
        let gb := qsum ((e.filter (fun r => decide (r.location = loc))).map (·.value)) / bytesPerGb
        (loc, gb, calculate_egress_cost gb loc))
      let period : ℚ :=
        if 1 < e.length then
          ((qmaxZ (e.map (·.timestamp)) - qminZ (e.map (·.timestamp)) : ℤ) : ℚ) / 86400
        else 0
      let monthly : Option MonthlyProjection :=
        if 0 < period then
          some { egress_gb := totalGb * (30 / period), cost := totalCost * (30 / period) }
        else none
      let costStatus :=
        if costThresholdCritical < totalCost then "critical"
        else if costThresholdWarning < totalCost then "warning"
        else "normal"
      .success {
        cost_status := costStatus
        egress_gb := totalGb
        total_cost := totalCost
        currency := "USD"
        time_period_days := period
        resources := resources.map (fun p =>
          { resource_id := p.1.1, resource_name := p.1.2.1, resource_type := p.1.2.2.1,
            region := p.1.2.2.2, egress_gb := p.2.1, cost := p.2.2,
            percentage_of_total := if 0 < totalCost then p.2.2 / totalCost * 100 else 0 })
        by_region := regionCosts.map (fun p =>
          (p.1, { egress_gb := p.2.1, cost := p.2.2,
                  percentage_of_total := if 0 < totalCost then p.2.2 / totalCost * 100 else 0 }))
        monthly_projection := monthly
        projection_warning :=
          match monthly with
          | none => none
          | some mp =>
            if costThresholdCritical < mp.cost ∧ costStatus ≠ "critical" then some "critical"
            else if costThresholdWarning < mp.cost ∧ costStatus = "normal" then some "warning"
            else none }

/-- A recommendation in the native shape of the cost and anomaly analyzers
(a plain dict before the engine standardises it). -/
structure NativeRec where
  rtype : String
  severity : String
  title : String
  description : String
  potential_savings : Option ℚ
  actions : List String
  resource_id : Option String
deriving DecidableEq, Repr

/-- Positional constructor for `NativeRec`
(type, severity, title, description, potential_savings, actions, resource_id). -/
def mkNative (rtype severity title description : String) (savings : Option ℚ)
    (actions : List String) (rid : Option String) : NativeRec :=
  ⟨rtype, severity, title, description, savings, actions, rid⟩

/-- Decimal rendering of a rational with `d` fractional digits, for the
f-string number formatting inside description texts (rounding half away from
zero; CPython rounds ties of the binary float to even, which never differs on
the data exercised here by more than the final digit of a tie). -/
def fmtFixed (d : ℕ) (q : ℚ) : String :=
  let scaled := q * (10 : ℚ) ^ d
  let n : ℤ := if scaled < 0 then -(⌊-scaled + 1/2⌋) else ⌊scaled + 1/2⌋
  let m := n.natAbs
  let fpStr := toString (m % 10 ^ d)
  (if n < 0 then "-" else "") ++ toString (m / 10 ^ d) ++ "." ++
    String.mk (List.replicate (d - fpStr.length) '0') ++ fpStr

/-- `CostAnalyzer.generate_cost_recommendations`.  The cross-region check
divides by `total_cost`; when at least two regions exist and the total cost
is zero this float division raises `ZeroDivisionError`, which nothing in the
source catches — modelled as `Except.error`. -/
def generate_cost_recommendations (ca : CostOutcome) : Except String (List NativeRec) :=
  match ca with
  | .success r =>
    let statusRecs : List NativeRec :=
      if r.cost_status = "critical" then
        [mkNative "cost" "high" "Critical Egress Cost Alert"
          "Your egress costs have exceeded the critical threshold. Review and optimize top consumers immediately."
          (some (r.total_cost * (3/10)))
          ["Implement content delivery network (CDN) for static content",
            "Review and adjust application egress patterns",
            "Consider VNet peering for internal communication"]
          none]
      else if r.cost_status = "warning" then
        [mkNative "cost" "medium" "High Egress Cost Warning"
          "Your egress costs are approaching critical levels. Consider optimization measures."
          (some (r.total_cost * (2/10)))
          ["Analyze top consumers and identify optimization opportunities",
            "Implement caching where appropriate",
            "Optimize data transfer patterns"]
          none]
      else []
    let sortedRes := stableSortBy (fun a b => decide (b.cost ≤ a.cost)) r.resources
    let resRecs : List NativeRec := (sortedRes.take 3).filterMap (fun res =>
      if 15 ≤ res.percentage_of_total then
        if containsStr (asciiLower res.resource_type) "virtualmachine" then
          some (mkNative "resource_specific" "medium"
            ("High VM Egress: " ++ res.resource_name)
            ("This virtual machine accounts for " ++
              fmtFixed 1 res.percentage_of_total ++ "% of your total egress costs.")
            (some (res.cost * (4/10)))
            ["Check for unnecessary file transfers or backups",
              "Review application architecture for bandwidth efficiency",
              "Consider compressed data formats",
              "Implement regional replication to reduce cross-region traffic"]
            (some res.resource_id))
        else if containsStr (asciiLower res.resource_type) "site" then
          some (mkNative "resource_specific" "medium"
            ("High App Service Egress: " ++ res.resource_name)
            ("This App Service accounts for " ++
              fmtFixed 1 res.percentage_of_total ++ "% of your total egress costs.")
            (some (res.cost * (5/10)))
            ["Implement Azure Front Door or CDN for static content",
              "Enable compression for HTTP responses",
              "Review API responses for unnecessary data",
              "Consider using Azure Cache for frequently accessed data"]
            (some res.resource_id))
        else none
      else none)
    let regionItems := stableSortBy (fun a b => decide (b.2.cost ≤ a.2.cost)) r.by_region
    if 2 ≤ regionItems.length ∧ r.total_cost = 0 then
      .error "float division by zero"
    else
      let crossRegion : List NativeRec :=
        if 1 < r.by_region.length ∧ 2 ≤ regionItems.length ∧
            (2/10 : ℚ) < ((regionItems.getD 1 ("", ⟨0, 0, 0⟩)).2.cost / r.total_cost) then
          [mkNative "region" "medium" "Significant Cross-Region Traffic"
            "You have substantial egress traffic spanning multiple regions which incurs higher costs."
            (some (r.total_cost * (15/100)))
            ["Consolidate workloads to fewer regions where possible",
              "Implement region-paired storage accounts",
              "Use Azure CDN for cross-region content delivery",
              "Consider Global VNet peering or ExpressRoute for consistent high-volume traffic"]
            none]
        else []
      let topRegion := match regionItems with | [] => "unknown" | p :: _ => p.1
      let topPct := match lookupStr r.by_region topRegion with
        | some rc => rc.percentage_of_total
        | none => 0
      let consolidation : List NativeRec :=
        if 1 < r.by_region.length ∧ topRegion ≠ "unknown" ∧ (70 : ℚ) < topPct then
          [mkNative "region" "low" ("Consider Consolidation to " ++ topRegion)
            (topRegion ++ " accounts for " ++ fmtFixed 1 topPct ++
              "% of egress. Consider consolidating more workloads here.")
            (some (r.total_cost * (8/100)))
            ["Move compatible workloads to " ++ topRegion,
              "Implement regional data replication",
              "Review application architecture for region-awareness"]
            none]
        else []
      let projection : List NativeRec :=
        match r.monthly_projection with
        | some mp =>
          if r.total_cost * (13/10) < mp.cost then
            [mkNative "projection" "medium" "Increasing Cost Trend Detected"
              ("Monthly projected cost of " ++ fmtFixed 2 mp.cost ++
                " " ++ r.currency ++ " is significantly higher than current spend.")
              (some (mp.cost * (25/100)))
              ["Set up Azure Budgets for proactive alerts",
                "Implement auto-scaling for predictable traffic patterns",
                "Analyze recent traffic growth patterns",
                "Consider reserved bandwidth options for ExpressRoute"]
              none]
          else []
        | none => []
      let recs := statusRecs ++ resRecs ++ crossRegion ++ consolidation ++ projection
      if recs.isEmpty then
        .ok [mkNative "general" "low" "General Cost Optimization"
          "Consider these general egress cost optimization strategies."
          (some (r.total_cost * (1/10)))
          ["Use Azure CDN for static content delivery",
            "Implement data compression for all transfers",
            "Consider proximity placement groups for related resources",
            "Review Azure Virtual Network design for traffic optimization"]
          none]
      else .ok recs
  | _ => .ok []

end Egress


namespace Egress

/-! ### RecommendationEngine (src/src/egress/recommendation.py)

The module never imports pandas even though the annotation of
`generate_recommendations` references `pd.DataFrame`, and its helpers
`_generate_trend_recommendations` / `_generate_combined_recommendations` read
the name `metrics_df`, which is a parameter of `generate_recommendations`
only and is bound nowhere in their scope, so reaching those reads raises
`NameError`.  Exceptions crossing the engine boundary are modelled with
`Except.error`.  The `related_metrics` and `metadata` fields of the standard
recommendation shape are omitted from the model: no claim reads them, the
cost/anomaly transforms never set them, and the only producers that do
(trend and combined recommendations) raise before returning. -/

/-- The standard recommendation shape the engine produces. -/
structure CRec where
  id : String
  rtype : String
  title : String
  description : String
  severity : String
  actions : List String
  potential_savings : Option ℚ
  confidence : ℚ
  source : String
  resource_id : Option String
  resource_name : Option String
deriving DecidableEq, Repr

/-- Splitting a character list on '/' (Python `str.split('/')`). -/
def splitSlashAux : List Char → List (List Char)
  | [] => [[]]
  | c :: cs =>
    match splitSlashAux cs with
    | [] => [[]]
    | h :: t => if c = '/' then [] :: h :: t else (c :: h) :: t

/-- `get_resource_name` of `utils/azure_utils.py`: the last '/'-separated
segment of the resource id ("unknown" for a falsy id), by explicit character
recursion so the kernel can evaluate it inside proofs. -/
def get_resource_name (resourceId : String) : String :=
  if resourceId = "" then "unknown"
  else String.mk ((splitSlashAux resourceId.toList).getLastD [])

/-- `RecommendationEngine._transform_cost_recommendations`: fixed confidence
0.9, ids `cost_<i>_<now>`. -/
def transform_cost_recommendations (now : String) (l : List NativeRec) : List CRec :=
  l.enum.map (fun p =>
    { id := "cost_" ++ toString p.1 ++ "_" ++ now,
      rtype := p.2.rtype, title := p.2.title, description := p.2.description,
      severity := p.2.severity, actions := p.2.actions,
      potential_savings := p.2.potential_savings,
      confidence := 9/10, source := "cost_analyzer",
      resource_id := p.2.resource_id,
      resource_name := p.2.resource_id.map get_resource_name })

/-- `RecommendationEngine._transform_anomaly_recommendations`: confidence
0.85 for high severity else 0.7, ids `anomaly_<i>_<now>`; the standardised
shape carries no `potential_savings` key. -/
def transform_anomaly_recommendations (now : String) (l : List NativeRec) : List CRec :=
  l.enum.map (fun p =>
    { id := "anomaly_" ++ toString p.1 ++ "_" ++ now,
      rtype := p.2.rtype, title := p.2.title, description := p.2.description,
      severity := p.2.severity, actions := p.2.actions,
      potential_savings := none,
      confidence := if p.2.severity = "high" then 17/20 else 7/10,
      source := "anomaly_detector",
      resource_id := p.2.resource_id,
      resource_name := p.2.resource_id.map get_resource_name })

/-- `AnomalyDetector.generate_anomaly_recommendations`. -/
def generate_anomaly_recommendations (res : AnomalyOutcome) : List NativeRec :=
  match res with
  | .success r =>
    if r.summary.total_anomalies = 0 then []
    else
      let highSev := r.anomalies.filter (fun a => decide (a.severity = "high"))
      let general : List NativeRec :=
        if !highSev.isEmpty then
          [mkNative "security" "high" "Critical Egress Anomalies Detected"
            ("Detected " ++ toString highSev.length ++
              " high-severity anomalies in egress traffic patterns.")
            none
            ["Investigate resources with anomalous egress patterns immediately",
              "Check for unauthorized access or data exfiltration",
              "Review security logs for suspicious activities",
              "Implement egress filtering if necessary"]
            none]
        else if 0 < r.summary.total_anomalies then
          [mkNative "security" "medium" "Egress Anomalies Detected"
            ("Detected " ++ toString r.summary.total_anomalies ++
              " anomalies in egress traffic patterns.")
            none
            ["Monitor resources with anomalous egress patterns",
              "Review recent application changes that might affect network traffic",
              "Set up alerts for significant traffic spikes"]
            none]
        else []
      let resRecs : List NativeRec := r.by_resource.filterMap (fun p =>
        match p.2 with
        | [] => none
        | a :: rest =>
          if (a :: rest).any (fun x => decide (x.severity = "high")) then
            some (mkNative "resource_specific" "high"
              ("Investigate " ++ a.resource_name ++ " Egress Anomaly")
              "Resource has exhibited highly anomalous egress patterns."
              none
              ["Verify all outbound connections from this resource",
                "Check for unauthorized access",
                "Review application logs for errors or unexpected behavior",
                "Consider implementing network security groups for egress control"]
              (some p.1))
          else none)
      let costRec : List NativeRec :=
        if 5 < r.summary.total_anomalies then
          [mkNative "cost" "medium" "Cost Impact from Anomalous Egress"
            "Multiple egress anomalies may lead to unexpected costs."
            none
            ["Review egress patterns for cost efficiency",
              "Set up budget alerts for unexpected traffic spikes",
              "Consider implementing egress optimization techniques"]
            none]
        else []
      general ++ resRecs ++ costRec
  | _ => []

/-- `RecommendationEngine._generate_trend_recommendations`: after the status
guard, line 290 evaluates `self.trend_analyzer.detect_weekly_patterns(metrics_df)`
where the name `metrics_df` is not bound in the function, so every call on a
successful trend result raises `NameError` (CPython words the message as
`name 'metrics_df' is not defined`). -/
def generate_trend_recommendations (tr : TrendOutcome) : Except String (List CRec) :=
  if tr.status ≠ "success" then .ok []
  else .error "NameError: name metrics_df is not defined"

/-- `direction` read through `.get("direction", "stable")`. -/
def TrendOutcome.directionField : TrendOutcome → String
  | .success r => r.direction
  | _ => "stable"

/-- `cost_status` read through `.get("cost_status", "normal")`. -/
def CostOutcome.costStatusField : CostOutcome → String
  | .success r => r.cost_status
  | _ => "normal"

/-- `total_cost` read through `.get("total_cost", 0)`. -/
def CostOutcome.totalCostField : CostOutcome → ℚ
  | .success r => r.total_cost
  | _ => 0

/-- `RecommendationEngine._generate_combined_recommendations`: the first two
blocks are pure; the CDN/caching block (line 440) evaluates the unbound name
`metrics_df` and raises `NameError` whenever its guard (both analyses
successful and total cost above half the warning threshold) passes. -/
def generate_combined_recommendations (now : String) (tr : TrendOutcome) (cr : CostOutcome)
    (ar : Option AnomalyOutcome) : Except String (List CRec) :=
  let costStatus := cr.costStatusField
  let rising : List CRec :=
    if tr.directionField = "increasing" ∧ (costStatus = "warning" ∨ costStatus = "critical") then
      [{ id := "combined_rising_costs_" ++ now, rtype := "strategic",
         title := "Strategic Review of Rising Egress Costs",
         description := "Both egress traffic and costs are increasing significantly. A strategic review of your network architecture is recommended.",
         severity := "high",
         actions := ["Conduct comprehensive network architecture review",
           "Implement cross-region traffic optimization",
           "Consider dedicated ExpressRoute for consistent high-volume traffic",
           "Evaluate global content delivery networks",
           "Implement strict egress monitoring and budget controls"],
         potential_savings := none, confidence := 9/10,
         source := "recommendation_engine", resource_id := none, resource_name := none }]
    else []
  let anomalyCombined : List CRec :=
    match ar with
    | some (.success a) =>
      if 3 < a.summary.total_anomalies ∧ (costStatus = "warning" ∨ costStatus = "critical") then
        [{ id := "combined_anomaly_costs_" ++ now, rtype := "security_cost",
           title := "Security and Cost Alert: Unusual Egress Patterns",
           description := "Detected " ++ toString a.summary.total_anomalies ++
             " anomalies (" ++ toString a.summary.high_count ++
             " high severity) along with elevated costs. This might indicate security issues with cost implications.",
           severity := if 0 < a.summary.high_count then "high" else "medium",
           actions := ["Implement egress security monitoring and filtering",
             "Review resource access controls",
             "Conduct security audit of high-egress resources",
             "Set up alerts for sudden egress spikes",
             "Consider network security groups with egress rules"],
           potential_savings := none,
           confidence := if 0 < a.summary.high_count then 17/20 else 7/10,
           source := "recommendation_engine", resource_id := none, resource_name := none }]
      else []
    | _ => []
  if tr.status = "success" ∧ cr.status = "success" ∧
      costThresholdWarning * (1/2) < cr.totalCostField then
    .error "NameError: name metrics_df is not defined"
  else
    .ok (rising ++ anomalyCombined)

/-- Severity weights of the engine (`high` 3, `medium` 2, `low` 1,
anything else 0 through `dict.get(..., 0)`). -/
def sevWeight (s : String) : ℕ :=
  if s = "high" then 3 else if s = "medium" then 2 else if s = "low" then 1 else 0

/-- One step of `_deduplicate_recommendations`: dict insertion keyed by
title; an existing entry is replaced when the newcomer has strictly higher
severity weight, or equal weight and strictly higher confidence. -/
def upsertRec (m : List (String × CRec)) (r : CRec) : List (String × CRec) :=
  match m with
  | [] => [(r.title, r)]
  | (t, e) :: rest =>
    if t = r.title then
      (t, if sevWeight r.severity > sevWeight e.severity then r
          else if sevWeight r.severity = sevWeight e.severity ∧ e.confidence < r.confidence then r
          else e) :: rest
    else (t, e) :: upsertRec rest r

/-- `RecommendationEngine._deduplicate_recommendations`. -/
def deduplicate_recommendations (l : List CRec) : List CRec :=
  (l.foldl upsertRec []).map (·.2)

/-- The priority comparator: descending severity weight, then descending
confidence (the sort key `(-severity_weight, -confidence)`). -/
def prioLe (a b : CRec) : Bool :=
  decide (sevWeight b.severity < sevWeight a.severity) ||
    (decide (sevWeight a.severity = sevWeight b.severity) && decide (b.confidence ≤ a.confidence))

/-- `RecommendationEngine._prioritize_recommendations`: stable sort by the
priority key, bucket by type in first-seen order, keep at most
`maxPerCategory` per bucket, re-sort the selection and truncate to
`maxRecommendations`. -/
def prioritize_recommendations (maxPerCategory maxRecommendations : ℕ) (l : List CRec) :
    List CRec :=
  if l.isEmpty then []
  else
    let sorted := stableSortBy prioLe l
    let cats := firstSeen (sorted.map (·.rtype))
    let selected := cats.flatMap
      (fun c => (sorted.filter (fun r => decide (r.rtype = c))).take maxPerCategory)
    (stableSortBy prioLe selected).take maxRecommendations

/-- `max_recommendations` default. -/
def maxRecommendationsDefault : ℕ := 15

/-- Twenty distinct recommendations, all of type "cost" (the recommendation
cap scenario). -/
def c7recs : List CRec :=
  (List.range 20).map (fun i =>
    { id := toString i, rtype := "cost", title := "rec " ++ toString i,
      description := "", severity := "low", actions := [],
      potential_savings := none, confidence := 1/2, source := "cost_analyzer",
      resource_id := none, resource_name := none })

/-- `max_per_category` default. -/
def maxPerCategoryDefault : ℕ := 5

/-- The dictionary `generate_recommendations` returns on the full path. -/
structure RecOutput where
  status : String
  timestamp : String
  count : ℕ
  trends_source : Bool
  costs_source : Bool
  anomalies_source : Bool
  recommendations : List CRec
  categories : List (String × ℕ)
deriving DecidableEq, Repr

/-- Result of `generate_recommendations`: the early empty-input return is the
two-key dict `{"status": "no_data", "recommendations": []}`. -/
inductive RecResult
  | no_data
  | result (r : RecOutput)
deriving DecidableEq, Repr

/-- `status` field of a `generate_recommendations` return value. -/
def RecResult.status : RecResult → String
  | .no_data => "no_data"
  | .result r => r.status

/-- `RecommendationEngine.generate_recommendations` with the default
configuration; `now` is the wall-clock reading used for the payload timestamp
and the generated recommendation ids.  Exceptions escaping the call (there is
no try/except in the engine) appear as `Except.error`. -/
def generate_recommendations (ds : List Row) (now : String) : Except String RecResult :=
  if ds.isEmpty then .ok .no_data
  else
    let tr := analyze_overall_trend ds
    let cr := analyze_costs ds
    let ar := detect_anomalies ds now
    let trendValid := tr.status = "success"
    let costValid := cr.status = "success"
    let anomalyValid := ar.status = "success"
    do
      let costRecs ←
        if costValid then do
          let n ← generate_cost_recommendations cr
          pure (transform_cost_recommendations now n)
        else pure []
      let trendRecs ← if trendValid then generate_trend_recommendations tr else pure []
      let anomalyRecs :=
        if anomalyValid then
          transform_anomaly_recommendations now (generate_anomaly_recommendations ar)
        else []
      let combined ←
        if trendValid ∧ costValid then
          generate_combined_recommendations now tr cr (if anomalyValid then some ar else none)
        else pure []
      let uniq := deduplicate_recommendations (costRecs ++ trendRecs ++ anomalyRecs ++ combined)
      let final := prioritize_recommendations maxPerCategoryDefault maxRecommendationsDefault uniq
      let cats := firstSeen (final.map (·.rtype))
      pure (.result {
        status := if final.isEmpty then "no_recommendations" else "success"
        timestamp := now
        count := final.length
        trends_source := trendValid
        costs_source := costValid
        anomalies_source := anomalyValid
        recommendations := final
        categories := cats.map
          (fun c => (c, (final.filter (fun r => decide (r.rtype = c))).length)) })

/-- A single non-egress row: the dataset of the status counterexample. -/
def c8ds : List Row :=
  [{ resource_id := "res1", resource_name := "vm1",
     resource_type := "microsoft.compute/virtualmachines", location := "eastus",
     metric_name := "cpu_percent", timestamp := 0, value := 1 }]

/-- The payload `generate_recommendations` returns on `c8ds`. -/
def c8out : RecOutput :=
  { status := "no_recommendations", timestamp := "t0", count := 0,
    trends_source := false, costs_source := false, anomalies_source := false,
    recommendations := [], categories := [] }

/-- An anomaly success payload with the embedded wall-clock reading erased. -/
def AnomalySuccess.stripClock (r : AnomalySuccess) : AnomalySuccess :=
  { r with timestamp := "" }

/-- An anomaly result with the embedded wall-clock reading erased. -/
def AnomalyOutcome.stripClock : AnomalyOutcome → AnomalyOutcome
  | .success r => .success r.stripClock
  | o => o

/-- A recommendation with its clock-derived id erased. -/
def CRec.stripClock (r : CRec) : CRec := { r with id := "" }

/-- An engine payload with the clock-derived fields (the timestamp and the
recommendation ids) erased. -/
def RecOutput.stripClock (o : RecOutput) : RecOutput :=
  { o with timestamp := "", recommendations := o.recommendations.map CRec.stripClock }

/-- An engine result with the clock-derived fields erased. -/
def RecResult.stripClock : RecResult → RecResult
  | .no_data => .no_data
  | .result o => .result o.stripClock

/-- An engine call outcome with the clock-derived fields erased. -/
def stripRecCall : Except String RecResult → Except String RecResult
  | .error e => .error e
  | .ok r => .ok r.stripClock

/-- Stripping the clock of the value half of a keyed recommendation. -/
def stripPair (p : String × CRec) : String × CRec := (p.1, p.2.stripClock)

end Egress




namespace Egress

/-! ### Proofs about the cost model -/

lemma spec_eq_zero_of_le {tiers : List Tier} {prev gb : ℚ}
    (hwf : TiersWF prev tiers) (hle : gb ≤ prev) :
    specProgressiveBracketCost tiers prev gb = 0 := by
  induction tiers generalizing prev with
  | nil => rfl
  | cons t rest ih =>
    simp only [TiersWF] at hwf
    obtain ⟨hp, hrest⟩ := hwf
    cases hl : t.limit_gb with
    | none =>
      simp only [specProgressiveBracketCost, hl]
      have : max (gb - prev) 0 = 0 := max_eq_right (by linarith)
      rw [this, mul_zero]
    | some l =>
      rw [hl] at hrest
      obtain ⟨hpl, hwl⟩ := hrest
      simp only [specProgressiveBracketCost, hl]
      have h1 : max (min gb l - prev) 0 = 0 :=
        max_eq_right (by have := min_le_left gb l; linarith)
      rw [h1, mul_zero, ih hwl (by linarith), add_zero]

/-- The tier walk of the source equals the progressive-bracket closed form
described by the specification, for well-formed tier tables and volumes at
or above the starting limit. -/
lemma walkTiers_eq_spec {tiers : List Tier} {prev gb : ℚ}
    (hwf : TiersWF prev tiers) (h : prev ≤ gb) :
    walkTiers tiers prev (gb - prev) = specProgressiveBracketCost tiers prev gb := by
  induction tiers generalizing prev with
  | nil => rfl
  | cons t rest ih =>
    simp only [TiersWF] at hwf
    obtain ⟨hp, hrest⟩ := hwf
    cases hl : t.limit_gb with
    | none =>
      simp only [walkTiers, specProgressiveBracketCost, hl]
      have : max (gb - prev) 0 = gb - prev := max_eq_left (by linarith)
      rw [this, mul_comm]
    | some l =>
      rw [hl] at hrest
      obtain ⟨hpl, hwl⟩ := hrest
      simp only [walkTiers, specProgressiveBracketCost, hl]
      have hmin : min (gb - prev) (l - prev) = min gb l - prev := by
        rcases le_total gb l with hgl | hgl
        · rw [min_eq_left (by linarith), min_eq_left hgl]
        · rw [min_eq_right (by linarith), min_eq_right hgl]
      have hmax : max (min gb l - prev) 0 = min gb l - prev :=
        max_eq_left (by rcases le_total gb l with hgl | hgl <;>
          simp [min_eq_left, min_eq_right, hgl] <;> linarith)
      rw [hmin, hmax]
      by_cases hstop : gb - prev - (min gb l - prev) ≤ 0
      · have hgl : gb ≤ l := by
          rcases le_total gb l with hgl | hgl
          · exact hgl
          · rw [min_eq_right hgl] at hstop; linarith
        rw [if_pos hstop, spec_eq_zero_of_le hwl hgl, add_zero, mul_comm]
      · have hgl : l < gb := by
          rcases lt_or_le l gb with hgl | hgl
          · exact hgl
          · rw [min_eq_left hgl] at hstop; simp at hstop
        rw [if_neg hstop, min_eq_right hgl.le]
        have : gb - prev - (l - prev) = gb - l := by ring
        rw [this, ih hwl hgl.le, mul_comm]

/-- The progressive-bracket closed form is monotone in the volume. -/
lemma spec_monotone {tiers : List Tier} {prev gb₁ gb₂ : ℚ}
    (hwf : TiersWF prev tiers) (h12 : gb₁ ≤ gb₂) :
    specProgressiveBracketCost tiers prev gb₁ ≤ specProgressiveBracketCost tiers prev gb₂ := by
  induction tiers generalizing prev with
  | nil => exact le_refl _
  | cons t rest ih =>
    simp only [TiersWF] at hwf
    obtain ⟨hp, hrest⟩ := hwf
    cases hl : t.limit_gb with
    | none =>
      simp only [specProgressiveBracketCost, hl]
      exact mul_le_mul_of_nonneg_left
        (max_le_max (by linarith) le_rfl) hp
    | some l =>
      rw [hl] at hrest
      obtain ⟨hpl, hwl⟩ := hrest
      simp only [specProgressiveBracketCost, hl]
      have h1 : min gb₁ l ≤ min gb₂ l := min_le_min h12 le_rfl
      exact add_le_add
        (mul_le_mul_of_nonneg_left (max_le_max (by linarith) le_rfl) hp)
        (ih hwl)

lemma InBracket.le_vol {tiers : List Tier} {prev gb : ℚ} {j : ℕ}
    (h : InBracket prev tiers j gb) (hwf : TiersWF prev tiers) : prev ≤ gb := by
  induction tiers generalizing prev j with
  | nil => exact absurd h (by cases j <;> simp [InBracket])
  | cons t rest ih =>
    simp only [TiersWF] at hwf
    obtain ⟨hp, hrest⟩ := hwf
    cases j with
    | zero => exact h.1
    | succ j =>
      obtain ⟨l, hl, hin⟩ := h
      rw [hl] at hrest
      obtain ⟨hpl, hwl⟩ := hrest
      exact le_trans hpl (ih hin hwl)

/-- Within a single bracket the closed-form cost is linear with slope the
configured tier price; since adjacent brackets share their boundary point,
this also gives continuity at tier boundaries. -/
lemma spec_bracket_diff {tiers : List Tier} {prev gb₁ gb₂ : ℚ} {j : ℕ}
    (hwf : TiersWF prev tiers)
    (h1 : InBracket prev tiers j gb₁) (h2 : InBracket prev tiers j gb₂) :
    specProgressiveBracketCost tiers prev gb₂ - specProgressiveBracketCost tiers prev gb₁ =
      priceAt tiers j * (gb₂ - gb₁) := by
  induction tiers generalizing prev j with
  | nil => exact absurd h1 (by cases j <;> simp [InBracket])
  | cons t rest ih =>
    simp only [TiersWF] at hwf
    obtain ⟨hp, hrest⟩ := hwf
    cases j with
    | zero =>
      obtain ⟨hpg1, hub1⟩ := h1
      obtain ⟨hpg2, hub2⟩ := h2
      cases hl : t.limit_gb with
      | none =>
        simp only [specProgressiveBracketCost, hl, priceAt, List.get?]
        rw [max_eq_left (by linarith), max_eq_left (by linarith)]
        simp; ring
      | some l =>
        rw [hl] at hrest
        obtain ⟨hpl, hwl⟩ := hrest
        have hg1l : gb₁ ≤ l := hub1 l hl
        have hg2l : gb₂ ≤ l := hub2 l hl
        simp only [specProgressiveBracketCost, hl, priceAt, List.get?]
        rw [min_eq_left hg1l, min_eq_left hg2l,
          max_eq_left (by linarith), max_eq_left (by linarith),
          spec_eq_zero_of_le hwl hg1l, spec_eq_zero_of_le hwl hg2l]
        simp; ring
    | succ j =>
      obtain ⟨l, hl, hin1⟩ := h1
      obtain ⟨l', hl', hin2⟩ := h2
      rw [hl] at hl'
      injection hl' with hll
      subst hll
      rw [hl] at hrest
      obtain ⟨hpl, hwl⟩ := hrest
      have hg1 : l ≤ gb₁ := hin1.le_vol hwl
      have hg2 : l ≤ gb₂ := hin2.le_vol hwl
      simp only [specProgressiveBracketCost, hl, priceAt, List.get?]
      rw [min_eq_right hg1, min_eq_right hg2]
      have : priceAt rest j = ((rest.get? j).map Tier.price).getD 0 := rfl
      rw [← this, ← ih hwl hin1 hin2]
      ring

/-- The default region map sends every region to one of the four configured
zone tier tables. -/
lemma regionTiers_cases (region : String) :
    regionTiers region = zone1Tiers ∨ regionTiers region = zone2Tiers ∨
      regionTiers region = zone3Tiers ∨ regionTiers region = defaultZoneTiers := by
  have hlook : ∀ (m : List (String × String)) (r d : String),
      (lookupStr m r).getD d = d ∨ ∃ p ∈ m, (lookupStr m r).getD d = p.2 := by
    intro m r d
    induction m with
    | nil => exact Or.inl rfl
    | cons p rest ih =>
      obtain ⟨k0, v⟩ := p
      by_cases h : k0 = r
      · right
        exact ⟨(k0, v), List.mem_cons_self _ _, by simp [lookupStr, h]⟩
      · rcases ih with h0 | ⟨q, hq, hv⟩
        · left; simpa [lookupStr, h] using h0
        · right; exact ⟨q, List.mem_cons_of_mem _ hq, by simpa [lookupStr, h] using hv⟩
  have hzone : ∀ p ∈ defaultRegionMap,
      p.2 = "zone1" ∨ p.2 = "zone2" ∨ p.2 = "zone3" ∨ p.2 = "default" := by decide
  unfold regionTiers
  rcases hlook defaultRegionMap (if region = "" then "unknown" else asciiLower region)
      "default" with h | ⟨p, hp, hv⟩
  · rw [h]; right; right; right; rfl
  · rw [hv]
    rcases hzone p hp with h2 | h2 | h2 | h2 <;> rw [h2]
    · left; rfl
    · right; left; rfl
    · right; right; left; rfl
    · right; right; right; rfl

/-- Each default zone table is well-formed. -/
lemma defaultZones_wf :
    TiersWF 0 zone1Tiers ∧ TiersWF 0 zone2Tiers ∧ TiersWF 0 zone3Tiers ∧
      TiersWF 0 defaultZoneTiers := by
  refine ⟨?_, ?_, ?_, ?_⟩ <;> norm_num [TiersWF, zone1Tiers, zone2Tiers, zone3Tiers, defaultZoneTiers]

lemma regionTiers_wf (region : String) : TiersWF 0 (regionTiers region) := by
  rcases regionTiers_cases region with h | h | h | h <;> rw [h]
  · exact defaultZones_wf.1
  · exact defaultZones_wf.2.1
  · exact defaultZones_wf.2.2.1
  · exact defaultZones_wf.2.2.2

end Egress

namespace Egress

/-! ### Claims C2 and C4: the tiered cost function -/

/-- **C2.** For every volume `gb ≥ 0` and every region string,
`calculate_egress_cost(gb, region)` lowercases the region (empty/falsy region
becomes "unknown"), maps it to a pricing zone with the default zone as
fallback — all of which is the definition of `regionTiers` — and walks the
zone tiers as a progressive bracket: the volume of each tier up to its
`limit_gb` cap is billed at that tier price, the remainder rolls into the
next tier, and the final unbounded tier absorbs the rest, as expressed by the
closed form `specProgressiveBracketCost`. -/
theorem C2_calculate_egress_cost_is_progressive_bracket (gb : ℚ) (region : String)
    (h : 0 ≤ gb) :
    calculate_egress_cost gb region = specProgressiveBracketCost (regionTiers region) 0 gb := by
  have h2 := walkTiers_eq_spec (regionTiers_wf region) h
  rw [sub_zero] at h2
  simpa [calculate_egress_cost] using h2

/-- Witness for C2 at `gb = 100`, region "EastUS". -/
theorem C2_witness :
    (0 : ℚ) ≤ 100 ∧
      calculate_egress_cost 100 "EastUS" =
        specProgressiveBracketCost (regionTiers "EastUS") 0 100 :=
  ⟨by norm_num, C2_calculate_egress_cost_is_progressive_bracket 100 "EastUS" (by norm_num)⟩

/-- **C4.** For every region, the cost is non-decreasing in the volume; it is
piecewise-linear with the marginal price inside bracket `j` equal to the
configured price of tier `j` (adjacent brackets share their boundary volume,
so the bracket formulas agree there and the function is continuous at tier
boundaries); and for the two-tier zone `[{10, 0.10}, {inf, 0.05}]` of the
specification, `cost 5 = 0.50`, `cost 10 = 1.00` and `cost 20 = 1.50`. -/
theorem C4_cost_monotone_piecewise_linear :
    (∀ (region : String) (gb₁ gb₂ : ℚ), 0 ≤ gb₁ → gb₁ ≤ gb₂ →
      calculate_egress_cost gb₁ region ≤ calculate_egress_cost gb₂ region) ∧
    (∀ (region : String) (j : ℕ) (gb₁ gb₂ : ℚ),
      InBracket 0 (regionTiers region) j gb₁ → InBracket 0 (regionTiers region) j gb₂ →
      gb₁ ≤ gb₂ →
      calculate_egress_cost gb₂ region - calculate_egress_cost gb₁ region =
        priceAt (regionTiers region) j * (gb₂ - gb₁)) ∧
    walkTiers [⟨some 10, 1/10⟩, ⟨none, 1/20⟩] 0 5 = 1/2 ∧
    walkTiers [⟨some 10, 1/10⟩, ⟨none, 1/20⟩] 0 10 = 1 ∧
    walkTiers [⟨some 10, 1/10⟩, ⟨none, 1/20⟩] 0 20 = 3/2 := by
  refine ⟨?_, ?_, by norm_num [walkTiers, min_def], by norm_num [walkTiers, min_def], by norm_num [walkTiers, min_def]⟩
  · intro region gb₁ gb₂ h0 h12
    rw [C2_calculate_egress_cost_is_progressive_bracket gb₁ region h0,
      C2_calculate_egress_cost_is_progressive_bracket gb₂ region (le_trans h0 h12)]
    exact spec_monotone (regionTiers_wf region) h12
  · intro region j gb₁ gb₂ h1 h2 h12
    have hwf := regionTiers_wf region
    have hg1 : (0 : ℚ) ≤ gb₁ := h1.le_vol hwf
    rw [C2_calculate_egress_cost_is_progressive_bracket gb₁ region hg1,
      C2_calculate_egress_cost_is_progressive_bracket gb₂ region (le_trans hg1 h12)]
    exact spec_bracket_diff hwf h1 h2

/-- The default region map sends "eastus" to zone 1. -/
lemma regionTiers_eastus : regionTiers "eastus" = zone1Tiers := by rfl

/-- Witness for C4: inside the second zone-1 bracket (volumes 10240 to
40960 GB) the marginal price is the configured 0.083 $/GB, and the cost is
monotone between 5 and 7 GB. -/
theorem C4_witness :
    calculate_egress_cost 20480 "eastus" - calculate_egress_cost 10240 "eastus" =
      priceAt (regionTiers "eastus") 1 * (20480 - 10240) ∧
    calculate_egress_cost 5 "eastus" ≤ calculate_egress_cost 7 "eastus" := by
  constructor
  · refine C4_cost_monotone_piecewise_linear.2.1 "eastus" 1 10240 20480 ?_ ?_ (by norm_num)
    · rw [regionTiers_eastus]
      refine ⟨10240, rfl, by norm_num, ?_⟩
      intro L hL
      have : (40960 : ℚ) = L := by
        simpa [zone1Tiers] using hL
      rw [← this]; norm_num
    · rw [regionTiers_eastus]
      refine ⟨10240, rfl, by norm_num, ?_⟩
      intro L hL
      have : (40960 : ℚ) = L := by
        simpa [zone1Tiers] using hL
      rw [← this]; norm_num
  · exact C4_cost_monotone_piecewise_linear.1 "eastus" 5 7 (by norm_num) (by norm_num)

end Egress

namespace Egress

/-! ### Claims C5 and C10: anomaly deduplication -/

lemma absGt_irrefl (s : Score) : Score.absGt s s = false := by
  simp [Score.absGt]

lemma absGt_asymm {a b : Score} (h : Score.absGt a b = true) :
    Score.absGt b a = false := by
  simp only [Score.absGt, decide_eq_true_eq, decide_eq_false_iff_not, not_lt] at h ⊢
  linarith

lemma absGt_false_trans {x m v : Score} (hx : 0 < x.den) (hm : 0 < m.den) (hv : 0 < v.den)
    (h1 : Score.absGt x m = false) (h2 : Score.absGt m v = false) :
    Score.absGt x v = false := by
  simp only [Score.absGt, decide_eq_false_iff_not, not_lt] at h1 h2 ⊢
  have H1 : x.num ^ 2 * m.den * v.den ≤ m.num ^ 2 * x.den * v.den :=
    mul_le_mul_of_nonneg_right h1 hv.le
  have H2 : m.num ^ 2 * v.den * x.den ≤ v.num ^ 2 * m.den * x.den :=
    mul_le_mul_of_nonneg_right h2 hx.le
  nlinarith

lemma absGt_step_newcomer (a b : AnomalyEntry) :
    Score.absGt a.score (if Score.absGt a.score b.score then a else b).score = false := by
  by_cases h : Score.absGt a.score b.score = true
  · rw [if_pos h]; exact absGt_irrefl _
  · rw [if_neg h]; simpa using h

lemma absGt_step_holder (a b : AnomalyEntry) :
    Score.absGt b.score (if Score.absGt a.score b.score then a else b).score = false := by
  by_cases h : Score.absGt a.score b.score = true
  · rw [if_pos h]; exact absGt_asymm h
  · rw [if_neg h]; exact absGt_irrefl _

lemma stepA_isSome (o : Option AnomalyEntry) (a : AnomalyEntry) : ∃ m, stepA o a = some m := by
  cases o <;> simp [stepA]

lemma foldl_stepA_ne_none :
    ∀ (xs : List AnomalyEntry) (b : AnomalyEntry),
      xs.foldl stepA (some b) ≠ none := by
  intro xs
  induction xs with
  | nil => intro b h; cases h
  | cons a xs ih =>
    intro b
    rw [List.foldl_cons]
    obtain ⟨m, hm⟩ := stepA_isSome (some b) a
    rw [hm]
    exact ih m

lemma stepA_den {o : Option AnomalyEntry} {a m : AnomalyEntry} (h : stepA o a = some m)
    (ha : 0 < a.score.den) (ho : ∀ b, o = some b → 0 < b.score.den) :
    0 < m.score.den := by
  cases o with
  | none =>
    simp only [stepA, Option.some.injEq] at h
    rw [← h]; exact ha
  | some b =>
    simp only [stepA, Option.some.injEq] at h
    by_cases hab : Score.absGt a.score b.score = true
    · rw [if_pos hab] at h; rw [← h]; exact ha
    · rw [if_neg hab] at h; rw [← h]; exact ho b rfl

set_option maxHeartbeats 1000000 in
lemma foldl_stepA_dominates :
    ∀ (xs : List AnomalyEntry) (o : Option AnomalyEntry) (v : AnomalyEntry),
      xs.foldl stepA o = some v →
      (∀ x ∈ xs, 0 < x.score.den) →
      (∀ b, o = some b → 0 < b.score.den) →
      0 < v.score.den ∧
        (∀ x ∈ xs, Score.absGt x.score v.score = false) ∧
        (∀ b, o = some b → Score.absGt b.score v.score = false) := by
  intro xs
  induction xs with
  | nil =>
    intro o v h hxs ho
    cases o with
    | none => cases h
    | some b =>
      simp only [List.foldl_nil, Option.some.injEq] at h
      refine ⟨h ▸ ho b rfl, by simp, ?_⟩
      intro b1 hb1
      injection hb1 with hb1
      rw [← hb1, ← h]
      exact absGt_irrefl _
  | cons a xs ih =>
    intro o v h hxs ho
    obtain ⟨m, hm⟩ := stepA_isSome o a
    rw [List.foldl_cons, hm] at h
    have haden : 0 < a.score.den := hxs a (List.mem_cons_self _ _)
    have hmden : 0 < m.score.den := stepA_den hm haden ho
    have hden2 : ∀ b, some m = some b → 0 < b.score.den := by
      intro b hb
      injection hb with hb
      rw [← hb]
      exact hmden
    have IH := ih (some m) v h (fun x hx => hxs x (List.mem_cons_of_mem _ hx)) hden2
    have hmv : Score.absGt m.score v.score = false := IH.2.2 m rfl
    refine ⟨IH.1, ?_, ?_⟩
    · intro x hx
      rcases List.mem_cons.mp hx with hx | hx
      · subst hx
        have hxm : Score.absGt x.score m.score = false := by
          cases o with
          | none =>
            simp only [stepA, Option.some.injEq] at hm
            rw [← hm]; exact absGt_irrefl _
          | some b =>
            simp only [stepA, Option.some.injEq] at hm
            rw [← hm]; exact absGt_step_newcomer _ _
        exact absGt_false_trans haden hmden IH.1 hxm hmv
      · exact IH.2.1 x hx
    · intro b hb
      cases o with
      | none => cases hb
      | some b0 =>
        injection hb with hb
        rw [← hb]
        have hb0 : 0 < b0.score.den := ho b0 rfl
        have hbm : Score.absGt b0.score m.score = false := by
          simp only [stepA, Option.some.injEq] at hm
          rw [← hm]; exact absGt_step_holder _ _
        exact absGt_false_trans hb0 hmden IH.1 hbm hmv

lemma alookup_upsertAnomaly (m : List ((String × ℤ × String) × AnomalyEntry))
    (a : AnomalyEntry) (k : String × ℤ × String) :
    alookup (upsertAnomaly m a) k =
      if anomalyKey a = k then stepA (alookup m k) a else alookup m k := by
  induction m with
  | nil =>
    by_cases h : anomalyKey a = k
    · simp [upsertAnomaly, alookup, h, stepA]
    · simp [upsertAnomaly, alookup, h]
  | cons p rest ih =>
    obtain ⟨k0, b⟩ := p
    by_cases h0 : k0 = anomalyKey a
    · subst h0
      by_cases hk : anomalyKey a = k
      · subst hk
        simp [upsertAnomaly, alookup, stepA]
      · simp [upsertAnomaly, alookup, hk]
    · have h0s : ¬(anomalyKey a = k0) := fun hh => h0 hh.symm
      by_cases hk : k0 = k
      · subst hk
        simp [upsertAnomaly, alookup, h0, h0s]
      · simp [upsertAnomaly, alookup, h0, hk, ih]

lemma foldl_upsert_lookup :
    ∀ (l : List AnomalyEntry) (m : List ((String × ℤ × String) × AnomalyEntry))
      (k : String × ℤ × String),
      alookup (l.foldl upsertAnomaly m) k =
        (l.filter (fun e => decide (anomalyKey e = k))).foldl stepA (alookup m k) := by
  intro l
  induction l with
  | nil => intro m k; rfl
  | cons a l ih =>
    intro m k
    rw [List.foldl_cons, ih, alookup_upsertAnomaly]
    by_cases h : anomalyKey a = k
    · simp [List.filter_cons, h]
    · simp [List.filter_cons, h]

lemma dedupLookup_eq (l : List AnomalyEntry) (k : String × ℤ × String) :
    dedupLookup l k = (l.filter (fun e => decide (anomalyKey e = k))).foldl stepA none := by
  unfold dedupLookup dedupMap
  rw [foldl_upsert_lookup]
  rfl

lemma mem_upsertAnomaly {m : List ((String × ℤ × String) × AnomalyEntry)} {a : AnomalyEntry}
    {p : (String × ℤ × String) × AnomalyEntry} (h : p ∈ upsertAnomaly m a) :
    p ∈ m ∨ p = (anomalyKey a, a) := by
  induction m with
  | nil =>
    simp only [upsertAnomaly, List.mem_singleton] at h
    exact Or.inr h
  | cons q rest ih =>
    obtain ⟨k0, b⟩ := q
    by_cases h0 : k0 = anomalyKey a
    · rw [upsertAnomaly, if_pos h0] at h
      rcases List.mem_cons.mp h with h | h
      · by_cases hab : Score.absGt a.score b.score = true
        · rw [if_pos hab] at h
          right; rw [h, h0]
        · rw [if_neg hab] at h
          left; rw [h]; exact List.mem_cons_self _ _
      · left; exact List.mem_cons_of_mem _ h
    · rw [upsertAnomaly, if_neg h0] at h
      rcases List.mem_cons.mp h with h | h
      · left; rw [h]; exact List.mem_cons_self _ _
      · rcases ih h with h | h
        · left; exact List.mem_cons_of_mem _ h
        · right; exact h

lemma mem_foldl_upsert :
    ∀ (l : List AnomalyEntry) (m : List ((String × ℤ × String) × AnomalyEntry))
      (p : (String × ℤ × String) × AnomalyEntry),
      p ∈ l.foldl upsertAnomaly m → p ∈ m ∨ (p.2 ∈ l ∧ anomalyKey p.2 = p.1) := by
  intro l
  induction l with
  | nil => intro m p h; exact Or.inl h
  | cons a l ih =>
    intro m p h
    rw [List.foldl_cons] at h
    rcases ih _ p h with h1 | h1
    · rcases mem_upsertAnomaly h1 with h2 | h2
      · exact Or.inl h2
      · right
        rw [h2]
        exact ⟨List.mem_cons_self _ _, rfl⟩
    · right
      exact ⟨List.mem_cons_of_mem _ h1.1, h1.2⟩

lemma keys_upsertAnomaly (m : List ((String × ℤ × String) × AnomalyEntry)) (a : AnomalyEntry) :
    (upsertAnomaly m a).map (·.1) =
      if anomalyKey a ∈ m.map (·.1) then m.map (·.1) else m.map (·.1) ++ [anomalyKey a] := by
  induction m with
  | nil => simp [upsertAnomaly]
  | cons q rest ih =>
    obtain ⟨k0, b⟩ := q
    by_cases h0 : k0 = anomalyKey a
    · subst h0
      simp [upsertAnomaly]
    · rw [upsertAnomaly, if_neg h0]
      simp only [List.map_cons, List.mem_cons]
      rw [ih]
      have hne : ¬(anomalyKey a = k0) := fun hh => h0 hh.symm
      by_cases hmem : anomalyKey a ∈ rest.map (·.1)
      · simp [hmem, hne]
      · simp [hmem, hne]

lemma nodup_keys_foldl_upsert :
    ∀ (l : List AnomalyEntry) (m : List ((String × ℤ × String) × AnomalyEntry)),
      (m.map (·.1)).Nodup → ((l.foldl upsertAnomaly m).map (·.1)).Nodup := by
  intro l
  induction l with
  | nil => intro m h; exact h
  | cons a l ih =>
    intro m h
    rw [List.foldl_cons]
    refine ih _ ?_
    rw [keys_upsertAnomaly]
    by_cases hmem : anomalyKey a ∈ m.map (·.1)
    · simpa [hmem] using h
    · simp only [hmem, if_false]
      rw [List.nodup_append]
      exact ⟨h, List.nodup_singleton _, by simpa using hmem⟩

lemma alookup_of_mem_nodup {κ α : Type} [DecidableEq κ] :
    ∀ {m : List (κ × α)}, (m.map (·.1)).Nodup → ∀ {p : κ × α}, p ∈ m → alookup m p.1 = some p.2 := by
  intro m
  induction m with
  | nil => intro _ p hp; cases hp
  | cons q rest ih =>
    intro hnd p hp
    obtain ⟨hq, hrest⟩ := List.nodup_cons.mp hnd
    rcases List.mem_cons.mp hp with h | h
    · rw [h, alookup, if_pos rfl]
    · rw [alookup]
      by_cases hk : q.1 = p.1
      · exfalso
        exact hq (List.mem_map.mpr ⟨p, h, by simpa using hk.symm⟩)
      · rw [if_neg hk]
        exact ih hrest h

lemma alookup_some_mem {κ α : Type} [DecidableEq κ] :
    ∀ {m : List (κ × α)} {k : κ} {v : α}, alookup m k = some v → (k, v) ∈ m := by
  intro m
  induction m with
  | nil => intro k v h; cases h
  | cons q rest ih =>
    intro k v h
    rw [alookup] at h
    by_cases hk : q.1 = k
    · rw [if_pos hk] at h
      injection h with h
      rw [← hk, ← h]
      exact List.mem_cons_self _ _
    · rw [if_neg hk] at h
      exact List.mem_cons_of_mem _ (ih h)

end Egress

namespace Egress

/-- **C5.** Deduplication keys candidates by
`(resource_id, timestamp, metric_name)` and keeps, for each key occurring in
the input, exactly one entry: an input entry whose absolute score no input
entry with the same key strictly exceeds (scores are reals `num / sqrt(den)`,
compared exactly on squares, under the detector invariant `den > 0`); and on
the concrete candidates (res1,t1,2.5), (res1,t1,3.0), (res1,t2,2.0),
(res2,t1,1.5) the output is exactly the three entries with the (res1,t1)
entry carrying score 3.0. -/
theorem C5_deduplication_keeps_largest_score :
    (∀ (l : List AnomalyEntry), (∀ e ∈ l, 0 < e.score.den) →
      (∀ e ∈ deduplicate_anomalies l, e ∈ l ∧
        ∀ x ∈ l, anomalyKey x = anomalyKey e → Score.absGt x.score e.score = false) ∧
      (∀ x ∈ l, ∃ e ∈ deduplicate_anomalies l, anomalyKey e = anomalyKey x) ∧
      ((deduplicate_anomalies l).map anomalyKey).Nodup) ∧
    deduplicate_anomalies
        [c5entry "res1" 1 (5/2) "zscore", c5entry "res1" 1 3 "mad",
         c5entry "res1" 2 2 "zscore", c5entry "res2" 1 (3/2) "zscore"] =
      [c5entry "res1" 1 3 "mad", c5entry "res1" 2 2 "zscore",
       c5entry "res2" 1 (3/2) "zscore"] := by
  constructor
  · intro l hden
    have hnodup : ((dedupMap l).map (·.1)).Nodup :=
      nodup_keys_foldl_upsert l [] (by simp)
    refine ⟨?_, ?_, ?_⟩
    · intro e he
      obtain ⟨p, hp, hpe⟩ := List.mem_map.mp he
      rcases mem_foldl_upsert l [] p hp with habs | hent
      · cases habs
      · constructor
        · rw [← hpe]; exact hent.1
        · intro x hx hkey
          have hl : alookup (dedupMap l) p.1 = some p.2 := alookup_of_mem_nodup hnodup hp
          have hfl : (l.filter (fun e2 => decide (anomalyKey e2 = p.1))).foldl stepA none =
              some p.2 := by
            rw [← dedupLookup_eq]; exact hl
          have hdom := foldl_stepA_dominates _ none p.2 hfl
            (fun y hy => hden y (List.mem_filter.mp hy).1) (fun b hb => by cases hb)
          have hxf : x ∈ l.filter (fun e2 => decide (anomalyKey e2 = p.1)) := by
            refine List.mem_filter.mpr ⟨hx, ?_⟩
            rw [decide_eq_true_eq, hkey, ← hpe]
            exact hent.2
          have := hdom.2.1 x hxf
          rw [← hpe]
          exact this
    · intro x hx
      rcases hflt : l.filter (fun e2 => decide (anomalyKey e2 = anomalyKey x)) with _ | ⟨a, rest⟩
      · exfalso
        have : x ∈ l.filter (fun e2 => decide (anomalyKey e2 = anomalyKey x)) :=
          List.mem_filter.mpr ⟨hx, by simp⟩
        rw [hflt] at this
        cases this
      · rcases hfv : (l.filter (fun e2 => decide (anomalyKey e2 = anomalyKey x))).foldl
            stepA none with _ | v
        · exfalso
          rw [hflt, List.foldl_cons] at hfv
          exact foldl_stepA_ne_none rest a (by simpa [stepA] using hfv)
        · have hlv : dedupLookup l (anomalyKey x) = some v := by
            rw [dedupLookup_eq]; exact hfv
          have hvmem : (anomalyKey x, v) ∈ dedupMap l := alookup_some_mem hlv
          have hkv : anomalyKey v = anomalyKey x := by
            rcases mem_foldl_upsert l [] _ hvmem with habs | hent
            · cases habs
            · exact hent.2
          exact ⟨v, List.mem_map.mpr ⟨(anomalyKey x, v), hvmem, rfl⟩, hkv⟩
    · have hmapeq : (deduplicate_anomalies l).map anomalyKey = (dedupMap l).map (·.1) := by
        unfold deduplicate_anomalies
        rw [List.map_map]
        refine List.map_congr_left ?_
        intro p hp
        rcases mem_foldl_upsert l [] p hp with habs | hent
        · cases habs
        · exact hent.2
      rw [hmapeq]
      exact hnodup
  · simp only [deduplicate_anomalies, dedupMap, List.foldl_cons, List.foldl_nil,
      upsertAnomaly, anomalyKey, c5entry, Score.absGt]
    norm_num
    rw [if_neg (by decide : ¬("res1" : String) = "res2")]
    rfl

/-- **C10.** When exactly two candidates carry a key and their absolute
scores are equal, deduplication keeps the one appearing earlier in the
combined z-score ++ MAD ++ moving-average order: replacement requires a
strictly larger absolute score. -/
theorem C10_tie_keeps_earlier_candidate (l : List AnomalyEntry)
    (k : String × ℤ × String) (e₁ e₂ : AnomalyEntry)
    (hf : l.filter (fun e => decide (anomalyKey e = k)) = [e₁, e₂])
    (heq : e₂.score.num ^ 2 * e₁.score.den = e₁.score.num ^ 2 * e₂.score.den) :
    dedupLookup l k = some e₁ := by
  rw [dedupLookup_eq, hf]
  simp only [List.foldl_cons, List.foldl_nil, stepA]
  have hfalse : Score.absGt e₂.score e₁.score = false := by
    simp [Score.absGt, heq]
  rw [if_neg (by simp [hfalse])]

/-- Witness for C10: a z-score candidate and a MAD candidate at the same key
with scores 3 and -3 resolve to the z-score candidate. -/
theorem C10_witness : dedupLookup [c10z, c10m] ("res1", 1, "m1") = some c10z := by
  apply C10_tie_keeps_earlier_candidate _ _ _ c10m
  · decide
  · norm_num [c10z, c10m]

end Egress

namespace Egress

/-- Witness for C5: the detector invariant holds on the concrete candidates,
and the general part of the claim applies to them. -/
theorem C5_witness :
    ((deduplicate_anomalies
        [c5entry "res1" 1 (5/2) "zscore", c5entry "res1" 1 3 "mad",
         c5entry "res1" 2 2 "zscore", c5entry "res2" 1 (3/2) "zscore"]).map anomalyKey).Nodup := by
  refine (C5_deduplication_keeps_largest_score.1 _ ?_).2.2
  intro e he
  fin_cases he <;> norm_num [c5entry]

end Egress

namespace Egress

/-! ### Claims C6 and C9: overall-trend classification and lookback deltas -/

lemma classifyTrend_spec (ns : ℚ) :
    (|ns| < 1 → classifyTrend ns = ("stable", "none")) ∧
    (1 ≤ |ns| →
      classifyTrend ns =
        ((if 0 < ns then "increasing" else "decreasing"),
          (if 10 < |ns| then "strong" else if 5 < |ns| then "moderate" else "weak"))) := by
  constructor
  · intro h
    rw [classifyTrend, if_pos h]
  · intro h
    rw [classifyTrend, if_neg (not_lt.mpr h)]
    by_cases hpos : 0 < ns
    · rw [if_pos hpos, if_pos hpos, abs_of_pos hpos]
    · rw [if_neg hpos, if_neg hpos]
      have hneg : ns < 0 := by
        rcases lt_or_eq_of_le (not_lt.mp hpos) with h1 | h1
        · exact h1
        · exfalso; rw [h1] at h; norm_num at h
      rw [abs_of_neg hneg]
      have e10 : (ns < -10) = (10 < -ns) := propext ⟨fun hh => by linarith, fun hh => by linarith⟩
      have e5 : (ns < -5) = (5 < -ns) := propext ⟨fun hh => by linarith, fun hh => by linarith⟩
      simp only [e10, e5]

lemma analyze_success_shape {ds : List Row} {r : TrendSuccess}
    (h : analyze_overall_trend ds = .success r) :
    (r.direction, r.strength) = classifyTrend r.normalized_slope_percent ∧
    r.day_over_day_percent =
      (if 2 ≤ (aggVals (egressRows ds)).length then
        some (if (aggVals (egressRows ds)).getD ((aggVals (egressRows ds)).length - 2) 0 = 0
          then 0
          else ((aggVals (egressRows ds)).getD ((aggVals (egressRows ds)).length - 1) 0 -
              (aggVals (egressRows ds)).getD ((aggVals (egressRows ds)).length - 2) 0) /
            (aggVals (egressRows ds)).getD ((aggVals (egressRows ds)).length - 2) 0 * 100)
      else none) ∧
    r.week_over_week_percent =
      (if 7 ≤ (aggVals (egressRows ds)).length then
        some (if (aggVals (egressRows ds)).getD ((aggVals (egressRows ds)).length - 7) 0 = 0
          then 0
          else ((aggVals (egressRows ds)).getD ((aggVals (egressRows ds)).length - 1) 0 -
              (aggVals (egressRows ds)).getD ((aggVals (egressRows ds)).length - 7) 0) /
            (aggVals (egressRows ds)).getD ((aggVals (egressRows ds)).length - 7) 0 * 100)
      else none) ∧
    trendMinDataPoints ≤ (aggVals (egressRows ds)).length := by
  unfold analyze_overall_trend at h
  simp only [] at h
  split at h
  · cases h
  · split at h
    · cases h
    · split at h
      · cases h
      · rename_i hempty hegress hnmin
        split at h
        · cases h
        · rename_i latest hlatest
          injection h with h
          subst h
          refine ⟨?_, rfl, rfl, by omega⟩
          split
          · rfl
          · rename_i hreg
            exfalso
            rw [trendMinDataPoints] at hnmin
            omega

/-- **C6.** For every successful overall-trend analysis, a normalized slope
of absolute value below 1 yields direction "stable" and strength "none";
otherwise the direction follows the sign of the normalized slope and the
strength bands are: above 10 in magnitude "strong", above 5 "moderate", else
"weak".  In particular the perfectly flat series `flatTrendDs`
(normalized slope 0) yields stable/none, and `risingTrendDs`
(normalized slope exactly 15) yields increasing/strong. -/
theorem C6_trend_classification :
    (∀ (ds : List Row) (r : TrendSuccess), analyze_overall_trend ds = .success r →
      (|r.normalized_slope_percent| < 1 → r.direction = "stable" ∧ r.strength = "none") ∧
      (1 ≤ |r.normalized_slope_percent| →
        r.direction = (if 0 < r.normalized_slope_percent then "increasing" else "decreasing") ∧
        r.strength = (if 10 < |r.normalized_slope_percent| then "strong"
          else if 5 < |r.normalized_slope_percent| then "moderate" else "weak"))) ∧
    (analyze_overall_trend flatTrendDs).classification = some ("stable", "none", 0) ∧
    (analyze_overall_trend risingTrendDs).classification = some ("increasing", "strong", 15) := by
  refine ⟨?_, ?_, ?_⟩
  · intro ds r h
    have hs := (analyze_success_shape h).1
    constructor
    · intro hlt
      have := (classifyTrend_spec r.normalized_slope_percent).1 hlt
      rw [this] at hs
      exact ⟨congrArg Prod.fst hs, congrArg Prod.snd hs⟩
    · intro hge
      have := (classifyTrend_spec r.normalized_slope_percent).2 hge
      rw [this] at hs
      exact ⟨congrArg Prod.fst hs, congrArg Prod.snd hs⟩
  · norm_num [TrendOutcome.classification, analyze_overall_trend, egressRows,
      show isEgressMetric "out" = true from by decide, flatTrendDs, aggVals,
      aggTimes, sortedKeys, firstSeen, stableSortBy, insertStable, qsum, qmean, qmin, qmax,
      pctChanges, olsSlope, olsIntercept, olsR2, classifyTrend, trendMinDataPoints,
      List.range, List.enum, List.enumFrom, List.filter, List.filterMap, List.getD,
      List.foldl, List.foldr, List.map, List.getLast?, List.isEmpty, min_def]
  · norm_num [TrendOutcome.classification, analyze_overall_trend, egressRows,
      show isEgressMetric "out" = true from by decide, risingTrendDs, aggVals,
      aggTimes, sortedKeys, firstSeen, stableSortBy, insertStable, qsum, qmean, qmin, qmax,
      pctChanges, olsSlope, olsIntercept, olsR2, classifyTrend, trendMinDataPoints,
      List.range, List.enum, List.enumFrom, List.filter, List.filterMap, List.getD,
      List.foldl, List.foldr, List.map, List.getLast?, List.isEmpty, min_def]

/-- Witness for C6: the general classification applied to the flat series. -/
theorem C6_witness :
    ∃ r : TrendSuccess, analyze_overall_trend flatTrendDs = .success r ∧
      r.direction = "stable" ∧ r.strength = "none" := by
  have hc := C6_trend_classification.2.1
  rcases hs : analyze_overall_trend flatTrendDs with _ | _ | ⟨m, n⟩ | e | r
  · rw [hs] at hc; simp [TrendOutcome.classification] at hc
  · rw [hs] at hc; simp [TrendOutcome.classification] at hc
  · rw [hs] at hc; simp [TrendOutcome.classification] at hc
  · rw [hs] at hc; simp [TrendOutcome.classification] at hc
  · refine ⟨r, rfl, ?_⟩
    rw [hs] at hc
    simp only [TrendOutcome.classification, Option.some.injEq] at hc
    have hlt : |r.normalized_slope_percent| < 1 := by
      rw [show r.normalized_slope_percent = 0 from congrArg (fun p => p.2.2) hc]
      norm_num
    exact (C6_trend_classification.1 flatTrendDs r hs).1 hlt

/-- **C9.** Every successful overall-trend analysis reports
`day_over_day_percent` exactly when at least 2 aggregated points exist
(comparing the last two aggregated values; 0 when the earlier one is 0) and
`week_over_week_percent` exactly when at least 7 aggregated points exist
(comparing the last aggregated value with the one 7 aggregated points back;
0 when that value is 0); each field is `None` when unavailable. -/
theorem C9_lookback_deltas :
    ∀ (ds : List Row) (r : TrendSuccess), analyze_overall_trend ds = .success r →
      r.day_over_day_percent =
        (if 2 ≤ (aggVals (egressRows ds)).length then
          some (if (aggVals (egressRows ds)).getD ((aggVals (egressRows ds)).length - 2) 0 = 0
            then 0
            else ((aggVals (egressRows ds)).getD ((aggVals (egressRows ds)).length - 1) 0 -
                (aggVals (egressRows ds)).getD ((aggVals (egressRows ds)).length - 2) 0) /
              (aggVals (egressRows ds)).getD ((aggVals (egressRows ds)).length - 2) 0 * 100)
        else none) ∧
      r.week_over_week_percent =
        (if 7 ≤ (aggVals (egressRows ds)).length then
          some (if (aggVals (egressRows ds)).getD ((aggVals (egressRows ds)).length - 7) 0 = 0
            then 0
            else ((aggVals (egressRows ds)).getD ((aggVals (egressRows ds)).length - 1) 0 -
                (aggVals (egressRows ds)).getD ((aggVals (egressRows ds)).length - 7) 0) /
              (aggVals (egressRows ds)).getD ((aggVals (egressRows ds)).length - 7) 0 * 100)
        else none) := by
  intro ds r h
  exact ⟨(analyze_success_shape h).2.1, (analyze_success_shape h).2.2.1⟩

/-- Witness for C9 on the seven-point series 1,…,7: day-over-day is
(7-6)/6·100 and week-over-week compares 7 against the value 7 aggregated
points back, 1, giving 600 percent. -/
theorem C9_witness :
    (analyze_overall_trend sevenPointDs).deltas = some (some (50/3), some 600) := by
  have heval : analyze_overall_trend sevenPointDs = .success
      { direction := "increasing", strength := "strong", confidence := 100,
        avg_change_percent := some (245/6), latest_change_percent := 50/3,
        slope := 1, normalized_slope_percent := 25, r_squared := 1,
        min_value := 1, max_value := 7, current_value := 7,
        day_over_day_percent := some (50/3), week_over_week_percent := some 600,
        timepoints := 7 } := by
    norm_num [analyze_overall_trend, egressRows,
      show isEgressMetric "out" = true from by decide, sevenPointDs, aggVals,
      aggTimes, sortedKeys, firstSeen, stableSortBy, insertStable, qsum, qmean, qmin, qmax,
      pctChanges, olsSlope, olsIntercept, olsR2, classifyTrend, trendMinDataPoints,
      List.range, List.enum, List.enumFrom, List.filter, List.filterMap, List.getD,
      List.foldl, List.foldr, List.map, List.getLast?, List.isEmpty, min_def]
  have ha : aggVals (egressRows sevenPointDs) = [1, 2, 3, 4, 5, 6, 7] := by
    norm_num [egressRows, show isEgressMetric "out" = true from by decide, sevenPointDs,
      aggVals, aggTimes, sortedKeys, firstSeen, stableSortBy, insertStable, qsum,
      List.filter, List.foldl, List.foldr, List.map]
  have hd := C9_lookback_deltas sevenPointDs _ heval
  rw [ha] at hd
  rw [heval]
  simp only [TrendOutcome.deltas]

end Egress

namespace Egress

/-! ### Claim C7: recommendation prioritization -/

lemma insertStable_perm (le : α → α → Bool) (a : α) (l : List α) :
    List.Perm (insertStable le a l) (a :: l) := by
  induction l with
  | nil => exact List.Perm.refl _
  | cons b l ih =>
    rw [insertStable]
    by_cases h : (le a b && !le b a) = true
    · rw [if_pos h]
    · rw [if_neg h]
      exact (ih.cons b).trans (List.Perm.swap a b l)

lemma stableSortBy_perm (le : α → α → Bool) (l : List α) :
    List.Perm (stableSortBy le l) l := by
  induction l with
  | nil => exact List.Perm.refl _
  | cons a l ih =>
    rw [stableSortBy, List.foldr_cons]
    exact (insertStable_perm le a _).trans (ih.cons a)

lemma mem_insertStable {le : α → α → Bool} {a x : α} {l : List α}
    (h : x ∈ insertStable le a l) : x = a ∨ x ∈ l := by
  have hm := (insertStable_perm le a l).mem_iff.mp h
  simpa using hm

lemma insertStable_pairwise (le : α → α → Bool)
    (htot : ∀ a b, le a b = true ∨ le b a = true)
    (htrans : ∀ a b c, le a b = true → le b c = true → le a c = true)
    (a : α) (l : List α) (h : l.Pairwise (fun x y => le x y = true)) :
    (insertStable le a l).Pairwise (fun x y => le x y = true) := by
  induction l with
  | nil => simp [insertStable]
  | cons b l ih =>
    obtain ⟨hb, hl⟩ := List.pairwise_cons.mp h
    rw [insertStable]
    by_cases hc : (le a b && !le b a) = true
    · rw [if_pos hc]
      have hab : le a b = true := by
        cases h1 : le a b with
        | true => rfl
        | false => rw [h1] at hc; simp at hc
      refine List.pairwise_cons.mpr ⟨?_, h⟩
      intro x hx
      rcases List.mem_cons.mp hx with hx | hx
      · rw [hx]; exact hab
      · exact htrans a b x hab (hb x hx)
    · rw [if_neg hc]
      have hba : le b a = true := by
        cases hh : le b a with
        | true => rfl
        | false =>
          exfalso
          rcases htot a b with h1 | h1
          · exact hc (by rw [h1, hh]; rfl)
          · rw [h1] at hh; cases hh
      refine List.pairwise_cons.mpr ⟨?_, ih hl⟩
      intro x hx
      rcases mem_insertStable hx with hx | hx
      · rw [hx]; exact hba
      · exact hb x hx

lemma stableSortBy_pairwise (le : α → α → Bool)
    (htot : ∀ a b, le a b = true ∨ le b a = true)
    (htrans : ∀ a b c, le a b = true → le b c = true → le a c = true)
    (l : List α) : (stableSortBy le l).Pairwise (fun x y => le x y = true) := by
  induction l with
  | nil => simp [stableSortBy]
  | cons a l ih =>
    rw [stableSortBy, List.foldr_cons]
    exact insertStable_pairwise le htot htrans a _ ih

lemma mem_firstSeen [DecidableEq α] : ∀ (l : List α) (x : α), x ∈ firstSeen l → x ∈ l := by
  intro l
  induction l using firstSeen.induct with
  | case1 => intro x h; rw [firstSeen] at h; cases h
  | case2 a l ih =>
    intro x h
    rw [firstSeen] at h
    rcases List.mem_cons.mp h with h | h
    · rw [h]; exact List.mem_cons_self _ _
    · exact List.mem_cons_of_mem _ (List.mem_of_mem_filter (ih _ h))

lemma nodup_firstSeen [DecidableEq α] : ∀ (l : List α), (firstSeen l).Nodup := by
  intro l
  induction l using firstSeen.induct with
  | case1 => rw [firstSeen]; exact List.nodup_nil
  | case2 a l ih =>
    rw [firstSeen]
    refine List.nodup_cons.mpr ⟨?_, ih⟩
    intro hmem
    have h1 := mem_firstSeen _ _ hmem
    have h2 := List.of_mem_filter h1
    simp at h2

lemma prioLe_total : ∀ a b : CRec, prioLe a b = true ∨ prioLe b a = true := by
  intro a b
  simp only [prioLe, Bool.or_eq_true, Bool.and_eq_true, decide_eq_true_eq]
  rcases lt_trichotomy (sevWeight a.severity) (sevWeight b.severity) with h | h | h
  · right; left; exact h
  · rcases le_total a.confidence b.confidence with hcf | hcf
    · right; right; exact ⟨h.symm, hcf⟩
    · left; right; exact ⟨h, hcf⟩
  · left; left; exact h

lemma prioLe_trans : ∀ a b c : CRec, prioLe a b = true → prioLe b c = true →
    prioLe a c = true := by
  intro a b c hab hbc
  simp only [prioLe, Bool.or_eq_true, Bool.and_eq_true, decide_eq_true_eq] at hab hbc ⊢
  rcases hab with h1 | ⟨h1, h1c⟩ <;> rcases hbc with h2 | ⟨h2, h2c⟩
  · left; omega
  · left; omega
  · left; omega
  · right; exact ⟨h1.trans h2, le_trans h2c h1c⟩

lemma countP_bucket_zero (L : List CRec) (c t : String) (hne : c ≠ t) (k : ℕ) :
    ((L.filter (fun r => decide (r.rtype = c))).take k).countP
      (fun r => decide (r.rtype = t)) = 0 := by
  rw [List.countP_eq_zero]
  intro r hr
  have hmem := List.take_subset _ _ hr
  have hrc := List.of_mem_filter hmem
  simp only [decide_eq_true_eq] at hrc ⊢
  rw [hrc]
  exact hne

lemma countP_flatMap_buckets (cats : List String) (hnd : cats.Nodup) (L : List CRec)
    (k : ℕ) (t : String) :
    (cats.flatMap (fun c => (L.filter (fun r => decide (r.rtype = c))).take k)).countP
      (fun r => decide (r.rtype = t)) ≤ k := by
  induction cats with
  | nil => simp
  | cons c cs ih =>
    obtain ⟨hc, hcs⟩ := List.nodup_cons.mp hnd
    rw [List.flatMap_cons, List.countP_append]
    by_cases hct : c = t
    · subst hct
      have h2 : (cs.flatMap (fun c2 => (L.filter (fun r => decide (r.rtype = c2))).take k)).countP
          (fun r => decide (r.rtype = c)) = 0 := by
        rw [List.countP_eq_zero]
        intro r hr
        obtain ⟨c2, hc2, hrc2⟩ := List.mem_flatMap.mp hr
        have hmem := List.take_subset _ _ hrc2
        have hrc := List.of_mem_filter hmem
        simp only [decide_eq_true_eq] at hrc ⊢
        rw [hrc]
        intro hcc
        exact hc (hcc ▸ hc2)
      rw [h2, Nat.add_zero]
      calc ((L.filter (fun r => decide (r.rtype = c))).take k).countP
            (fun r => decide (r.rtype = c)) ≤
          ((L.filter (fun r => decide (r.rtype = c))).take k).length :=
            List.countP_le_length _
        _ ≤ k := List.length_take_le _ _
    · rw [countP_bucket_zero L c t hct k, Nat.zero_add]
      exact ih hcs

/-- **C7.** Prioritization sorts by descending severity weight (high 3,
medium 2, low 1) then descending confidence, keeps at most `maxPerCategory`
recommendations per type bucket in first-seen order, re-sorts the selection
and truncates to `maxRecommendations`; consequently the output never holds
more than `maxPerCategory` recommendations of any one type, never more than
`maxRecommendations` in total, and is sorted by the priority key.  In
particular, for the 20 type-"cost" recommendations `c7recs` with
`max_per_category = 5`, at most 5 survive even under a generous
`max_recommendations` of 100. -/
theorem C7_prioritization_caps :
    (∀ (mpc mr : ℕ) (l : List CRec) (t : String),
      (prioritize_recommendations mpc mr l).countP (fun r => decide (r.rtype = t)) ≤ mpc ∧
      (prioritize_recommendations mpc mr l).length ≤ mr ∧
      (prioritize_recommendations mpc mr l).Pairwise (fun a b => prioLe a b = true)) ∧
    (prioritize_recommendations 5 100 c7recs).countP
      (fun r => decide (r.rtype = "cost")) ≤ 5 := by
  have hmain : ∀ (mpc mr : ℕ) (l : List CRec) (t : String),
      (prioritize_recommendations mpc mr l).countP (fun r => decide (r.rtype = t)) ≤ mpc ∧
      (prioritize_recommendations mpc mr l).length ≤ mr ∧
      (prioritize_recommendations mpc mr l).Pairwise (fun a b => prioLe a b = true) := by
    intro mpc mr l t
    rw [prioritize_recommendations]
    by_cases hl : l.isEmpty = true
    · rw [if_pos hl]
      simp
    · rw [if_neg hl]
      simp only []
      refine ⟨?_, List.length_take_le _ _, ?_⟩
      · refine le_trans ((List.take_sublist mr _).countP_le _) ?_
        rw [(stableSortBy_perm prioLe _).countP_eq]
        exact countP_flatMap_buckets _ (nodup_firstSeen _) _ _ _
      · exact List.Pairwise.sublist (List.take_sublist _ _)
          (stableSortBy_pairwise prioLe prioLe_total prioLe_trans _)
  exact ⟨hmain, (hmain 5 100 c7recs "cost").1⟩

end Egress

namespace Egress

/-! ### Claim C8: the status vocabulary -/

lemma c8_tr : analyze_overall_trend c8ds = .no_egress_data := by rfl

lemma c8_cr : analyze_costs c8ds = .no_egress_data := by rfl

lemma c8_ar : detect_anomalies c8ds "t0" = .no_egress_data := by rfl

lemma c8_eval : generate_recommendations c8ds "t0" = .ok (.result c8out) := by
  rw [generate_recommendations, if_neg (by decide : ¬(c8ds.isEmpty = true))]
  simp only []
  simp only [c8_tr, c8_cr, c8_ar, TrendOutcome.status, CostOutcome.status,
    AnomalyOutcome.status]
  simp [deduplicate_recommendations, prioritize_recommendations, firstSeen, c8out,
    RecResult.status, pure, Except.pure, Bind.bind, Except.bind]

lemma except_bind_ok {α β : Type} {x : Except String α} {f : α → Except String β} {b : β}
    (h : x >>= f = .ok b) : ∃ a, x = .ok a ∧ f a = .ok b := by
  cases x with
  | error e =>
    exfalso
    have he : (Except.error e : Except String α) >>= f = Except.error e := rfl
    rw [he] at h
    exact Except.noConfusion h
  | ok a => exact ⟨a, rfl, h⟩

/-- **C8 (amended).** Each of the five analyzers indeed only ever reports a
status among `success`, `no_data`, `no_egress_data`, `insufficient_data` and
`error`; but `generate_recommendations` does not: whenever it returns at all,
its status is `no_data`, `success` or `no_recommendations` — the last of
which lies outside the five-value vocabulary the spec allows (see the
counterexample). -/
theorem C8_status_values :
    (∀ ds : List Row,
      (analyze_overall_trend ds).status ∈
        ["success", "no_data", "no_egress_data", "insufficient_data", "error"] ∧
      (detect_weekly_patterns ds).status ∈
        ["success", "no_data", "no_egress_data", "insufficient_data", "error"] ∧
      (detect_hourly_patterns ds).status ∈
        ["success", "no_data", "no_egress_data", "insufficient_data", "error"] ∧
      (analyze_costs ds).status ∈
        ["success", "no_data", "no_egress_data", "insufficient_data", "error"]) ∧
    (∀ (ds : List Row) (now : String),
      (detect_anomalies ds now).status ∈
        ["success", "no_data", "no_egress_data", "insufficient_data", "error"]) ∧
    (∀ (ds : List Row) (now : String) (res : RecResult),
      generate_recommendations ds now = .ok res →
        res.status ∈ ["no_data", "success", "no_recommendations"]) := by
  refine ⟨fun ds => ⟨?_, ?_, ?_, ?_⟩, fun ds now => ?_, fun ds now res h => ?_⟩
  · cases analyze_overall_trend ds <;> simp [TrendOutcome.status]
  · cases detect_weekly_patterns ds <;> simp [WeeklyOutcome.status]
  · cases detect_hourly_patterns ds <;> simp [HourlyOutcome.status]
  · cases analyze_costs ds <;> simp [CostOutcome.status]
  · cases detect_anomalies ds now <;> simp [AnomalyOutcome.status]
  · rw [generate_recommendations] at h
    by_cases hd : ds.isEmpty = true
    · rw [if_pos hd] at h
      have hres := Except.ok.inj h
      rw [← hres]
      simp [RecResult.status]
    · rw [if_neg hd] at h
      simp only [] at h
      repeat'
        first
          | (obtain ⟨a0, ha0, h⟩ := except_bind_ok h)
          | split at h
      all_goals
        first
          | exact (Except.noConfusion h)
          | (rw [← Except.ok.inj h]; simp [RecResult.status])

/-- **C8 (counterexample).** On a one-row dataset whose metric is not an
egress metric, `generate_recommendations` returns a payload with status
`no_recommendations`, which is not one of the five allowed values. -/
theorem C8_counterexample :
    ∃ res : RecResult, generate_recommendations c8ds "t0" = Except.ok res ∧
      res.status = "no_recommendations" ∧
      res.status ∉ ["success", "no_data", "no_egress_data", "insufficient_data", "error"] := by
  refine ⟨.result c8out, c8_eval, ?_, ?_⟩
  · simp [RecResult.status, c8out]
  · simp [RecResult.status, c8out]

/-- Witness for C8: the amended claim applied to the concrete dataset
`c8ds`. -/
theorem C8_witness :
    (RecResult.result c8out).status ∈ ["no_data", "success", "no_recommendations"] :=
  C8_status_values.2.2 c8ds "t0" (RecResult.result c8out) c8_eval

end Egress

namespace Egress

/-! ### Claim C1: the engine raises on every trend-successful dataset -/

lemma ebind_ok {α β : Type} (a : α) (f : α → Except String β) :
    (Except.ok a >>= f) = f a := rfl

lemma ebind_err {α β : Type} (e : String) (f : α → Except String β) :
    ((Except.error e : Except String α) >>= f) = Except.error e := rfl

lemma epure_bind {α β : Type} (a : α) (f : α → Except String β) :
    ((pure a : Except String α) >>= f) = f a := rfl

lemma c1_rising_status : (analyze_overall_trend risingTrendDs).status = "success" := by
  norm_num [TrendOutcome.status, analyze_overall_trend, egressRows,
    show isEgressMetric "out" = true from by decide, risingTrendDs, aggVals,
    aggTimes, sortedKeys, firstSeen, stableSortBy, insertStable, qsum, qmean, qmin, qmax,
    pctChanges, olsSlope, olsIntercept, olsR2, classifyTrend, trendMinDataPoints,
    List.range, List.enum, List.enumFrom, List.filter, List.filterMap, List.getD,
    List.foldl, List.foldr, List.map, List.getLast?, List.isEmpty, min_def]

lemma except_ite_ok_ne_error {α : Type} {c : Prop} [Decidable c] {x y : α} {e : String}
    (h : (if c then Except.ok x else Except.ok y) = Except.error e) : False := by
  split at h <;> exact Except.noConfusion h

lemma gcr_error_msg {ca : CostOutcome} {e : String}
    (h : generate_cost_recommendations ca = .error e) : e = "float division by zero" := by
  cases ca with
  | success r =>
    unfold generate_cost_recommendations at h
    simp only [] at h
    split at h
    · exact (Except.error.inj h).symm
    · exact absurd h (fun hh => except_ite_ok_ne_error hh)
  | no_data => exact Except.noConfusion h
  | no_egress_data => exact Except.noConfusion h
  | error e2 => exact Except.noConfusion h

/-- **C1 (code bug).** The spec promises that `generate_recommendations`
never raises across the component boundary; in the source, however,
`_generate_trend_recommendations` reads the unbound name `metrics_df`
(a parameter of `generate_recommendations` only, and the module never
imports pandas), so on every dataset whose overall-trend analysis succeeds
the engine raises instead of returning: a `NameError`, unless the cost
recommendation step already raised its `ZeroDivisionError` first. -/
theorem C1_trend_success_raises (ds : List Row) (now : String)
    (htr : (analyze_overall_trend ds).status = "success") :
    ∃ e, generate_recommendations ds now = Except.error e ∧
      (e = "NameError: name metrics_df is not defined" ∨ e = "float division by zero") := by
  have hne : ¬(ds.isEmpty = true) := by
    intro hds
    rw [analyze_overall_trend, if_pos hds] at htr
    simp [TrendOutcome.status] at htr
  have hgt : generate_trend_recommendations (analyze_overall_trend ds) =
      Except.error "NameError: name metrics_df is not defined" := by
    rw [generate_trend_recommendations, if_neg (by simp [htr])]
  rw [generate_recommendations, if_neg hne]
  simp only []
  by_cases hcv : (analyze_costs ds).status = "success"
  · rw [if_pos hcv]
    cases hg : generate_cost_recommendations (analyze_costs ds) with
    | error e =>
      refine ⟨e, ?_, Or.inr (gcr_error_msg hg)⟩
      rfl
    | ok n =>
      refine ⟨"NameError: name metrics_df is not defined", ?_, Or.inl rfl⟩
      simp [hg, htr, hcv, ebind_ok, epure_bind, hgt, ebind_err]
  · rw [if_neg hcv]
    refine ⟨"NameError: name metrics_df is not defined", ?_, Or.inl rfl⟩
    simp [htr, hcv, epure_bind, hgt, ebind_err]

/-- The rising series drives the trend analysis to a success, so the engine
raises on it: C1 applied to `risingTrendDs`. -/
theorem C1_witness :
    (analyze_overall_trend risingTrendDs).status = "success" ∧
    ∃ e, generate_recommendations risingTrendDs "t0" = Except.error e ∧
      (e = "NameError: name metrics_df is not defined" ∨ e = "float division by zero") :=
  ⟨c1_rising_status, C1_trend_success_raises risingTrendDs "t0" c1_rising_status⟩

end Egress

namespace Egress

/-! ### Claim C3: determinism and the embedded wall clock -/

lemma anomaly_status_strip (o : AnomalyOutcome) : o.stripClock.status = o.status := by
  cases o <;> rfl

lemma gar_strip (o : AnomalyOutcome) :
    generate_anomaly_recommendations o.stripClock = generate_anomaly_recommendations o := by
  cases o <;> rfl

lemma detect_anomalies_clock_free (ds : List Row) (t1 t2 : String) :
    (detect_anomalies ds t1).stripClock = (detect_anomalies ds t2).stripClock := by
  rw [detect_anomalies, detect_anomalies]
  by_cases h : ds.isEmpty = true
  · rw [if_pos h, if_pos h]
  · rw [if_neg h, if_neg h]
    simp only []
    by_cases h2 : (egressRows ds).isEmpty = true
    · rw [if_pos h2, if_pos h2]
    · rw [if_neg h2, if_neg h2]
      rfl

lemma detect_anomalies_timestamp (ds : List Row) (t : String)
    (h1 : ¬(ds.isEmpty = true)) (h2 : ¬((egressRows ds).isEmpty = true)) :
    ∃ r, detect_anomalies ds t = .success r ∧ r.timestamp = t := by
  rw [detect_anomalies, if_neg h1]
  simp only []
  rw [if_neg h2]
  exact ⟨_, rfl, rfl⟩

end Egress

namespace Egress

lemma strip_title (r : CRec) : r.stripClock.title = r.title := rfl

lemma strip_severity (r : CRec) : r.stripClock.severity = r.severity := rfl

lemma strip_confidence (r : CRec) : r.stripClock.confidence = r.confidence := rfl

lemma strip_rtype (r : CRec) : r.stripClock.rtype = r.rtype := rfl

lemma prioLe_strip (a b : CRec) : prioLe a.stripClock b.stripClock = prioLe a b := rfl

lemma transform_cost_strip (t1 t2 : String) (n : List NativeRec) :
    (transform_cost_recommendations t1 n).map CRec.stripClock =
    (transform_cost_recommendations t2 n).map CRec.stripClock := by
  simp only [transform_cost_recommendations, List.map_map]
  rfl

lemma transform_anomaly_strip (t1 t2 : String) (n : List NativeRec) :
    (transform_anomaly_recommendations t1 n).map CRec.stripClock =
    (transform_anomaly_recommendations t2 n).map CRec.stripClock := by
  simp only [transform_anomaly_recommendations, List.map_map]
  rfl

lemma upsertRec_strip : ∀ (m1 m2 : List (String × CRec)) (r1 r2 : CRec),
    m1.map stripPair = m2.map stripPair → r1.stripClock = r2.stripClock →
    (upsertRec m1 r1).map stripPair = (upsertRec m2 r2).map stripPair := by
  intro m1
  induction m1 with
  | nil =>
    intro m2 r1 r2 hm hr
    cases m2 with
    | nil =>
      have ht : r1.title = r2.title := by
        rw [← strip_title r1, ← strip_title r2, hr]
      simp [upsertRec, stripPair, ht, hr]
    | cons p m2 => simp at hm
  | cons p m1 ih =>
    intro m2 r1 r2 hm hr
    cases m2 with
    | nil => simp at hm
    | cons q m2 =>
      obtain ⟨t, e⟩ := p
      obtain ⟨t2h, e2⟩ := q
      rw [List.map_cons, List.map_cons] at hm
      have hhead := List.head_eq_of_cons_eq hm
      have htail := List.tail_eq_of_cons_eq hm
      have hkey : t = t2h := congrArg Prod.fst hhead
      have he : e.stripClock = e2.stripClock := congrArg Prod.snd hhead
      have htitle : r1.title = r2.title := by
        rw [← strip_title r1, ← strip_title r2, hr]
      have hsev : r1.severity = r2.severity := by
        rw [← strip_severity r1, ← strip_severity r2, hr]
      have hconf : r1.confidence = r2.confidence := by
        rw [← strip_confidence r1, ← strip_confidence r2, hr]
      have hesev : e.severity = e2.severity := by
        rw [← strip_severity e, ← strip_severity e2, he]
      have heconf : e.confidence = e2.confidence := by
        rw [← strip_confidence e, ← strip_confidence e2, he]
      rw [upsertRec, upsertRec]
      by_cases hteq : t = r1.title
      · have hteq2 : t2h = r2.title := by
          rw [← hkey, ← htitle]
          exact hteq
        rw [if_pos hteq, if_pos hteq2]
        rw [List.map_cons, List.map_cons, htail]
        congr 1
        simp only [stripPair, hkey]
        congr 1
        by_cases h1 : sevWeight r1.severity > sevWeight e.severity
        · have h1b : sevWeight r2.severity > sevWeight e2.severity := by
            rw [← hsev, ← hesev]
            exact h1
          rw [if_pos h1, if_pos h1b]
          exact hr
        · have h1b : ¬(sevWeight r2.severity > sevWeight e2.severity) := by
            rw [← hsev, ← hesev]
            exact h1
          rw [if_neg h1, if_neg h1b]
          by_cases h2 : sevWeight r1.severity = sevWeight e.severity ∧ e.confidence < r1.confidence
          · have h2b : sevWeight r2.severity = sevWeight e2.severity ∧
                e2.confidence < r2.confidence := by
              rw [← hsev, ← hesev, ← heconf, ← hconf]
              exact h2
            rw [if_pos h2, if_pos h2b]
            exact hr
          · have h2b : ¬(sevWeight r2.severity = sevWeight e2.severity ∧
                e2.confidence < r2.confidence) := by
              rw [← hsev, ← hesev, ← heconf, ← hconf]
              exact h2
            rw [if_neg h2, if_neg h2b]
            exact he
      · have hteq2 : ¬(t2h = r2.title) := by
          rw [← hkey, ← htitle]
          exact hteq
        rw [if_neg hteq, if_neg hteq2]
        rw [List.map_cons, List.map_cons]
        rw [hhead, ih m2 r1 r2 htail hr]

lemma foldl_upsert_strip : ∀ (l1 l2 : List CRec) (m1 m2 : List (String × CRec)),
    l1.map CRec.stripClock = l2.map CRec.stripClock → m1.map stripPair = m2.map stripPair →
    (l1.foldl upsertRec m1).map stripPair = (l2.foldl upsertRec m2).map stripPair := by
  intro l1
  induction l1 with
  | nil =>
    intro l2 m1 m2 hl hm
    cases l2 with
    | nil => simpa using hm
    | cons b l2 => simp at hl
  | cons a l1 ih =>
    intro l2 m1 m2 hl hm
    cases l2 with
    | nil => simp at hl
    | cons b l2 =>
      rw [List.map_cons, List.map_cons] at hl
      have hhead := List.head_eq_of_cons_eq hl
      have htail := List.tail_eq_of_cons_eq hl
      rw [List.foldl_cons, List.foldl_cons]
      exact ih l2 _ _ htail (upsertRec_strip m1 m2 a b hm hhead)

lemma dedup_strip {l1 l2 : List CRec}
    (h : l1.map CRec.stripClock = l2.map CRec.stripClock) :
    (deduplicate_recommendations l1).map CRec.stripClock =
    (deduplicate_recommendations l2).map CRec.stripClock := by
  have hf := foldl_upsert_strip l1 l2 [] [] h rfl
  simp only [deduplicate_recommendations, List.map_map]
  have e1 : ∀ m : List (String × CRec),
      m.map (CRec.stripClock ∘ (·.2)) = (m.map stripPair).map (·.2) := by
    intro m
    rw [List.map_map]
    rfl
  rw [e1, e1, hf]

lemma insertStable_strip : ∀ (l1 l2 : List CRec) (a1 a2 : CRec),
    l1.map CRec.stripClock = l2.map CRec.stripClock → a1.stripClock = a2.stripClock →
    (insertStable prioLe a1 l1).map CRec.stripClock =
    (insertStable prioLe a2 l2).map CRec.stripClock := by
  intro l1
  induction l1 with
  | nil =>
    intro l2 a1 a2 hl ha
    cases l2 with
    | nil => simp [insertStable, ha]
    | cons b l2 => simp at hl
  | cons x l1 ih =>
    intro l2 a1 a2 hl ha
    cases l2 with
    | nil => simp at hl
    | cons y l2 =>
      rw [List.map_cons, List.map_cons] at hl
      have hhead := List.head_eq_of_cons_eq hl
      have htail := List.tail_eq_of_cons_eq hl
      have hcmp : (prioLe a1 x && !prioLe x a1) = (prioLe a2 y && !prioLe y a2) := by
        rw [← prioLe_strip a1 x, ← prioLe_strip x a1, ha, hhead,
          prioLe_strip, prioLe_strip]
      rw [insertStable, insertStable]
      by_cases hc : (prioLe a1 x && !prioLe x a1) = true
      · rw [if_pos hc, if_pos (by rw [← hcmp]; exact hc)]
        rw [List.map_cons, List.map_cons, List.map_cons, List.map_cons, ha, hhead, htail]
      · rw [if_neg hc, if_neg (by rw [← hcmp]; exact hc)]
        rw [List.map_cons, List.map_cons, hhead]
        congr 1
        exact ih l2 a1 a2 htail ha

lemma stableSortBy_strip : ∀ {l1 l2 : List CRec},
    l1.map CRec.stripClock = l2.map CRec.stripClock →
    (stableSortBy prioLe l1).map CRec.stripClock =
    (stableSortBy prioLe l2).map CRec.stripClock := by
  intro l1
  induction l1 with
  | nil =>
    intro l2 hl
    cases l2 with
    | nil => rfl
    | cons b l2 => simp at hl
  | cons a l1 ih =>
    intro l2 hl
    cases l2 with
    | nil => simp at hl
    | cons b l2 =>
      rw [List.map_cons, List.map_cons] at hl
      have hhead := List.head_eq_of_cons_eq hl
      have htail := List.tail_eq_of_cons_eq hl
      rw [stableSortBy, stableSortBy, List.foldr_cons, List.foldr_cons]
      exact insertStable_strip _ _ a b (ih htail) hhead

lemma rtype_strip_comp :
    ((fun r : CRec => r.rtype) ∘ CRec.stripClock) = fun r : CRec => r.rtype := rfl

lemma rtype_map_of_strip {l1 l2 : List CRec}
    (h : l1.map CRec.stripClock = l2.map CRec.stripClock) :
    l1.map (·.rtype) = l2.map (·.rtype) := by
  calc l1.map (·.rtype) = (l1.map CRec.stripClock).map (·.rtype) := by
        rw [List.map_map, rtype_strip_comp]
    _ = (l2.map CRec.stripClock).map (·.rtype) := by rw [h]
    _ = l2.map (·.rtype) := by rw [List.map_map, rtype_strip_comp]

lemma filter_rtype_strip : ∀ {l1 l2 : List CRec}, l1.map CRec.stripClock = l2.map CRec.stripClock →
    ∀ c : String,
    (l1.filter (fun r => decide (r.rtype = c))).map CRec.stripClock =
    (l2.filter (fun r => decide (r.rtype = c))).map CRec.stripClock := by
  intro l1
  induction l1 with
  | nil =>
    intro l2 hl c
    cases l2 with
    | nil => rfl
    | cons b l2 => simp at hl
  | cons a l1 ih =>
    intro l2 hl c
    cases l2 with
    | nil => simp at hl
    | cons b l2 =>
      rw [List.map_cons, List.map_cons] at hl
      have hhead := List.head_eq_of_cons_eq hl
      have htail := List.tail_eq_of_cons_eq hl
      have hrt : a.rtype = b.rtype := by
        rw [← strip_rtype a, ← strip_rtype b, hhead]
      rw [List.filter_cons, List.filter_cons]
      by_cases hac : a.rtype = c
      · rw [if_pos (by simpa using hac), if_pos (by simp [← hrt, hac])]
        rw [List.map_cons, List.map_cons, hhead, ih htail c]
      · rw [if_neg (by simpa using hac), if_neg (by simp [← hrt]; exact hac)]
        exact ih htail c

lemma length_of_map_strip {l1 l2 : List CRec}
    (h : l1.map CRec.stripClock = l2.map CRec.stripClock) : l1.length = l2.length := by
  have hh := congrArg List.length h
  simpa using hh

lemma isEmpty_of_map_strip {l1 l2 : List CRec}
    (h : l1.map CRec.stripClock = l2.map CRec.stripClock) : l1.isEmpty = l2.isEmpty := by
  cases l1 with
  | nil =>
    cases l2 with
    | nil => rfl
    | cons b m => simp at h
  | cons a l =>
    cases l2 with
    | nil => simp at h
    | cons b m => rfl

lemma flatMap_strip {cats : List String} {g1 g2 : String → List CRec}
    (h : ∀ c ∈ cats, (g1 c).map CRec.stripClock = (g2 c).map CRec.stripClock) :
    (cats.flatMap g1).map CRec.stripClock = (cats.flatMap g2).map CRec.stripClock := by
  induction cats with
  | nil => rfl
  | cons c cs ih =>
    rw [List.flatMap_cons, List.flatMap_cons, List.map_append, List.map_append,
      h c (List.mem_cons_self _ _), ih (fun d hd => h d (List.mem_cons_of_mem _ hd))]

lemma prioritize_strip (mpc mr : ℕ) {l1 l2 : List CRec}
    (h : l1.map CRec.stripClock = l2.map CRec.stripClock) :
    (prioritize_recommendations mpc mr l1).map CRec.stripClock =
    (prioritize_recommendations mpc mr l2).map CRec.stripClock := by
  rw [prioritize_recommendations, prioritize_recommendations]
  by_cases he : l1.isEmpty = true
  · rw [if_pos he, if_pos (by rw [← isEmpty_of_map_strip h]; exact he)]
  · rw [if_neg he, if_neg (by rw [← isEmpty_of_map_strip h]; exact he)]
    simp only []
    have hsorted := stableSortBy_strip h
    have hcats : firstSeen ((stableSortBy prioLe l1).map (·.rtype)) =
        firstSeen ((stableSortBy prioLe l2).map (·.rtype)) := by
      rw [rtype_map_of_strip hsorted]
    rw [hcats]
    have hsel : ((firstSeen ((stableSortBy prioLe l2).map (·.rtype))).flatMap
          (fun c => ((stableSortBy prioLe l1).filter (fun r => decide (r.rtype = c))).take mpc)).map
            CRec.stripClock =
        ((firstSeen ((stableSortBy prioLe l2).map (·.rtype))).flatMap
          (fun c => ((stableSortBy prioLe l2).filter (fun r => decide (r.rtype = c))).take mpc)).map
            CRec.stripClock := by
      refine flatMap_strip (fun c _ => ?_)
      rw [List.map_take, List.map_take, filter_rtype_strip hsorted c]
    rw [List.map_take, List.map_take, stableSortBy_strip hsel]

end Egress

namespace Egress

lemma strip_result_congr {a1 a2 : RecOutput} (h : a1.stripClock = a2.stripClock) :
    stripRecCall (pure (.result a1)) = stripRecCall (pure (.result a2)) := by
  show Except.ok (RecResult.result a1).stripClock = Except.ok (RecResult.result a2).stripClock
  rw [RecResult.stripClock, RecResult.stripClock, h]

lemma recOutput_strip_build (ts1 ts2 : String) (u1 u2 : List CRec) (b1 b2 b3 : Bool)
    (hu : u1.map CRec.stripClock = u2.map CRec.stripClock) :
    RecOutput.stripClock
      { status := if (prioritize_recommendations maxPerCategoryDefault
            maxRecommendationsDefault (deduplicate_recommendations u1)).isEmpty = true
          then "no_recommendations" else "success"
        timestamp := ts1
        count := (prioritize_recommendations maxPerCategoryDefault
          maxRecommendationsDefault (deduplicate_recommendations u1)).length
        trends_source := b1
        costs_source := b2
        anomalies_source := b3
        recommendations := prioritize_recommendations maxPerCategoryDefault
          maxRecommendationsDefault (deduplicate_recommendations u1)
        categories := (firstSeen ((prioritize_recommendations maxPerCategoryDefault
            maxRecommendationsDefault (deduplicate_recommendations u1)).map (·.rtype))).map
          (fun c => (c, ((prioritize_recommendations maxPerCategoryDefault
            maxRecommendationsDefault (deduplicate_recommendations u1)).filter
            (fun r => decide (r.rtype = c))).length)) } =
    RecOutput.stripClock
      { status := if (prioritize_recommendations maxPerCategoryDefault
            maxRecommendationsDefault (deduplicate_recommendations u2)).isEmpty = true
          then "no_recommendations" else "success"
        timestamp := ts2
        count := (prioritize_recommendations maxPerCategoryDefault
          maxRecommendationsDefault (deduplicate_recommendations u2)).length
        trends_source := b1
        costs_source := b2
        anomalies_source := b3
        recommendations := prioritize_recommendations maxPerCategoryDefault
          maxRecommendationsDefault (deduplicate_recommendations u2)
        categories := (firstSeen ((prioritize_recommendations maxPerCategoryDefault
            maxRecommendationsDefault (deduplicate_recommendations u2)).map (·.rtype))).map
          (fun c => (c, ((prioritize_recommendations maxPerCategoryDefault
            maxRecommendationsDefault (deduplicate_recommendations u2)).filter
            (fun r => decide (r.rtype = c))).length)) } := by
  have hfin := prioritize_strip maxPerCategoryDefault maxRecommendationsDefault
    (dedup_strip hu)
  simp only [RecOutput.stripClock, RecOutput.mk.injEq]
  refine ⟨?_, trivial, ?_, trivial, trivial, trivial, ?_, ?_⟩
  · rw [isEmpty_of_map_strip hfin]
  · exact length_of_map_strip hfin
  · exact hfin
  · rw [rtype_map_of_strip hfin]
    refine List.map_congr_left (fun c _ => ?_)
    rw [length_of_map_strip (filter_rtype_strip hfin c)]

/-- **C3 (amended).** Each analyzer is a deterministic function of its
explicit inputs, but the promised bit-identity across calls fails for the
clock-reading analyzers: `detect_anomalies` embeds the wall-clock reading in
its success payload (see the counterexample), and `generate_recommendations`
embeds it in its payload timestamp and in every recommendation id.  Two
calls on the same dataset at different instants agree exactly up to those
clock-derived fields: erasing them yields bit-identical results. -/
theorem C3_clock_determinism :
    (∀ (ds : List Row) (t1 t2 : String),
      (detect_anomalies ds t1).stripClock = (detect_anomalies ds t2).stripClock) ∧
    (∀ (ds : List Row) (t1 t2 : String),
      stripRecCall (generate_recommendations ds t1) =
        stripRecCall (generate_recommendations ds t2)) := by
  refine ⟨detect_anomalies_clock_free, fun ds t1 t2 => ?_⟩
  rw [generate_recommendations, generate_recommendations]
  by_cases hd : ds.isEmpty = true
  · rw [if_pos hd, if_pos hd]
  · rw [if_neg hd, if_neg hd]
    simp only []
    have hst : (detect_anomalies ds t1).status = (detect_anomalies ds t2).status := by
      rw [← anomaly_status_strip (detect_anomalies ds t1),
        detect_anomalies_clock_free ds t1 t2, anomaly_status_strip]
    have hgar : generate_anomaly_recommendations (detect_anomalies ds t1) =
        generate_anomaly_recommendations (detect_anomalies ds t2) := by
      rw [← gar_strip (detect_anomalies ds t1), detect_anomalies_clock_free ds t1 t2,
        gar_strip]
    by_cases hcv : (analyze_costs ds).status = "success"
    · rw [if_pos hcv, if_pos hcv]
      cases hg : generate_cost_recommendations (analyze_costs ds) with
      | error e => rfl
      | ok n =>
        by_cases htv : (analyze_overall_trend ds).status = "success"
        · have hgt : generate_trend_recommendations (analyze_overall_trend ds) =
              Except.error "NameError: name metrics_df is not defined" := by
            rw [generate_trend_recommendations, if_neg (by simp [htv])]
          simp only [ebind_ok, epure_bind, if_pos htv, hgt, ebind_err]
        · have hnb : ¬((analyze_overall_trend ds).status = "success" ∧
              (analyze_costs ds).status = "success") := fun hh => htv hh.1
          simp only [ebind_ok, epure_bind, if_neg htv, if_neg hnb, hst, hgar]
          refine strip_result_congr (recOutput_strip_build t1 t2 _ _ _ _ _ ?_)
          by_cases hav : (detect_anomalies ds t2).status = "success"
          · simp only [if_pos hav, List.map_append, List.map_nil,
              transform_cost_strip t1 t2, transform_anomaly_strip t1 t2]
          · simp only [if_neg hav, List.map_append, List.map_nil,
              transform_cost_strip t1 t2]
    · rw [if_neg hcv, if_neg hcv]
      by_cases htv : (analyze_overall_trend ds).status = "success"
      · have hgt : generate_trend_recommendations (analyze_overall_trend ds) =
            Except.error "NameError: name metrics_df is not defined" := by
          rw [generate_trend_recommendations, if_neg (by simp [htv])]
        simp only [epure_bind, if_pos htv, hgt, ebind_err]
      · have hnb : ¬((analyze_overall_trend ds).status = "success" ∧
            (analyze_costs ds).status = "success") := fun hh => htv hh.1
        simp only [epure_bind, if_neg htv, if_neg hnb, hst, hgar]
        refine strip_result_congr (recOutput_strip_build t1 t2 _ _ _ _ _ ?_)
        by_cases hav : (detect_anomalies ds t2).status = "success"
        · simp only [if_pos hav, List.map_append, List.map_nil,
            transform_anomaly_strip t1 t2]
        · simp only [if_neg hav, List.map_append, List.map_nil]

/-- **C3 (counterexample).** The same dataset submitted to `detect_anomalies`
at two different wall-clock instants yields results that are not
bit-identical: the success payload embeds the reading of the clock. -/
theorem C3_counterexample :
    detect_anomalies flatTrendDs "2024-05-01T10:00:00" ≠
      detect_anomalies flatTrendDs "2024-05-01T11:00:00" := by
  intro h
  obtain ⟨r1, e1, ht1⟩ := detect_anomalies_timestamp flatTrendDs "2024-05-01T10:00:00"
    (by decide) (by decide)
  obtain ⟨r2, e2, ht2⟩ := detect_anomalies_timestamp flatTrendDs "2024-05-01T11:00:00"
    (by decide) (by decide)
  rw [e1, e2] at h
  have hr := AnomalyOutcome.success.inj h
  rw [hr] at ht1
  rw [ht2] at ht1
  exact absurd ht1 (by decide)

end Egress
